import Mathlib

/-!
Verification development for the RepairMind print client core.

The definitions below are a shallow embedding of the JavaScript sources:
  * `src/src/core/jobQueue.js`        — persistent job queue (class JobQueue)
  * `src/src/core/socketClient.js`    — reconnect backoff (class SocketClient)
  * `src/src/core/spoolerMonitor.js`  — OS spooler polling (class SpoolerMonitor)
  * `src/unnamed/part_006`            — current printExecutor (class PrintExecutor):
    `downloadFile` and `buildThermalReceipt`.  (`src/unnamed/part_007` holds two
    superseded copies of the executor; the current one is the part_006 version,
    which is the one the repository wires in and the spec describes.)

JavaScript numbers used here are non-negative integers (timestamps, counters,
millisecond delays), embedded as `Nat`.  Absent (`undefined`/`null`) string or
number fields are embedded as `Option`; JavaScript truthiness on them is made
explicit (`none` and `some ""` / `some 0` are falsy).  Asynchronous executor
completion is embedded by splitting `_processJob` into its synchronous prefix
(`startJob`, run inside a scheduling pass) and its continuation after the
`await` (`finishJob`).  The `_processingLock` re-entrancy flag of
`processNext` is invisible in this sequential embedding: each call below is
one complete, non-reentrant scheduling pass.
-/

namespace RepairMind

/-- JavaScript truthiness of an optional string (`undefined`, `null` and `""`
are falsy). -/
def strTruthy : Option String → Bool
  | none => false
  | some s => decide (s ≠ "")

/-- JavaScript `a || b` for an optional string `a` and default `b`. -/
def jsOrStr (a : Option String) (b : String) : String :=
  match a with
  | none => b
  | some s => if s = "" then b else s

/-- JavaScript `a || b` for an optional number `a` and default `b`
(`0` is falsy). -/
def jsOrNat (a : Option Nat) (b : Nat) : Nat :=
  match a with
  | none => b
  | some n => if n = 0 then b else n

/-! ## Job queue data model (src/src/core/jobQueue.js) -/

/-- Queue entry status strings. -/
inductive Status
  | queued
  | processing
  | completed
  | failed
  | expired
  | cancelled
deriving DecidableEq, Repr

/-- `completed | failed | expired | cancelled` — the terminal statuses
(`trimHistory`'s filter in jobQueue.js). -/
def isTerminal : Status → Bool
  | .completed => true
  | .failed => true
  | .expired => true
  | .cancelled => true
  | _ => false

/-- The nested `options` object of a wire job (only the field the queue
consults). -/
structure JobOptions where
  priority : Option String := none
deriving DecidableEq, Repr

/-- A print job as received from the backend. `priority` is the top-level
wire field; the queue reads only `options.priority`. -/
structure Job where
  id : String
  printerSystemName : Option String := none
  priority : Option String := none
  options : Option JobOptions := none
deriving DecidableEq, Repr

/-- A queue entry (the object literal built in `JobQueue.enqueue`). -/
structure Entry where
  id : String
  job : Job
  printerSystemName : String
  status : Status
  priority : String
  retries : Nat
  maxRetries : Nat
  nextRetry : Option Nat
  createdAt : Nat
  updatedAt : Nat
  expiresAt : Nat
  error : Option String
deriving DecidableEq, Repr

/-- The queue's aggregate counters (`this.metrics`). -/
structure Metrics where
  totalEnqueued : Nat := 0
  totalCompleted : Nat := 0
  totalFailed : Nat := 0
  totalExpired : Nat := 0
  totalDeduplicated : Nat := 0
deriving DecidableEq, Repr

/-- Events emitted by the queue (`this.emit(...)` calls). `jobRetrying`
carries the spread entry plus the computed delay. -/
inductive QEvent
  | jobQueued (e : Entry)
  | jobDeduplicated (id : String)
  | jobProcessing (e : Entry)
  | jobCompleted (e : Entry)
  | jobRetrying (e : Entry) (delay : Nat)
  | jobFailed (e : Entry)
  | jobExpired (e : Entry)
  | jobCancelled (e : Entry)
  | queueError (msg : String)
deriving DecidableEq, Repr

/-- The in-memory state of a `JobQueue` instance. `hasCallback` records
whether `setExecuteCallback` has been called (`this.executeCallback`). -/
structure QueueState where
  jobs : List Entry := []
  processingPrinters : Finset String := ∅
  maxRetries : Nat := 3
  retryDelays : List Nat := [5000, 15000, 60000]
  maxCompletedJobs : Nat := 100
  defaultTTL : Nat := 86400000
  hasCallback : Bool := true
  metrics : Metrics := {}
deriving DecidableEq

/-- Priority ordinals: `PRIORITY = { urgent: 0, normal: 1, low: 2 }` with the
`?? 1` fallback applied at use sites. -/
def priorityOrdinal (p : String) : Nat :=
  if p = "urgent" then 0 else if p = "normal" then 1 else if p = "low" then 2 else 1

/-- The comparator of `processNext`'s sort, as a total preorder: priority
ordinal ascending, then `createdAt` ascending (stable sort). -/
def entryLE (a b : Entry) : Bool :=
  priorityOrdinal a.priority < priorityOrdinal b.priority ||
    (priorityOrdinal a.priority = priorityOrdinal b.priority && a.createdAt ≤ b.createdAt)

/-- The filter of `processNext`: queued, retry time reached, printer idle. -/
def readyEntry (st : QueueState) (now : Nat) (e : Entry) : Bool :=
  e.status = Status.queued &&
    (e.nextRetry.isNone || decide (e.nextRetry.getD 0 ≤ now)) &&
    !(e.printerSystemName ∈ st.processingPrinters)

/-- Indices of entries passing `processNext`'s filter, in array order. -/
def readyIdxs (st : QueueState) (now : Nat) : List Nat :=
  (List.range st.jobs.length).filter fun i =>
    match st.jobs[i]? with
    | some e => readyEntry st now e
    | none => false

/-- `entry.status = 'processing'; entry.updatedAt = Date.now()`. -/
def markProcessing (now : Nat) (e : Entry) : Entry :=
  { e with status := Status.processing, updatedAt := now }

/-- The synchronous prefix of `_processJob`: mark the printer busy, set the
entry to `processing`, emit `job-processing`. -/
def startJob (st : QueueState) (now : Nat) (i : Nat) : QueueState × List QEvent :=
  match st.jobs[i]? with
  | none => (st, [])
  | some e =>
    let e' : Entry := markProcessing now e
    ({ st with
        jobs := st.jobs.set i e',
        processingPrinters := insert e.printerSystemName st.processingPrinters },
      [QEvent.jobProcessing e'])

/-- The `for (const entry of readyJobs)` loop of `processNext`: re-check the
busy set (which grows during the pass), start each job whose printer is
still idle. -/
def processLoop (now : Nat) : QueueState → List Nat → QueueState × List QEvent
  | st, [] => (st, [])
  | st, i :: rest =>
    match st.jobs[i]? with
    | none => processLoop now st rest
    | some e =>
      if e.printerSystemName ∈ st.processingPrinters then
        processLoop now st rest
      else
        let p := startJob st now i
        let q := processLoop now p.1 rest
        (q.1, p.2 ++ q.2)

/-- `JobQueue.processNext`: one complete scheduling pass. No-op when no
executor callback is registered. -/
def processNext (st : QueueState) (now : Nat) : QueueState × List QEvent :=
  if st.hasCallback then
    processLoop now st ((readyIdxs st now).mergeSort fun i j =>
      match st.jobs[i]?, st.jobs[j]? with
      | some a, some b => entryLE a b
      | _, _ => true)
  else (st, [])

/-- Options argument of `JobQueue.enqueue`. -/
structure EnqueueOptions where
  priority : Option String := none
  ttl : Option Nat := none
deriving DecidableEq, Repr

/-- `JobQueue.enqueue(job, options)`: validation, idempotency check,
entry construction, then a scheduling pass. Returns the boolean result,
the new state and the emitted events. -/
def enqueue (st : QueueState) (now : Nat) (job : Job) (opts : EnqueueOptions) :
    Bool × QueueState × List QEvent :=
  if !(strTruthy job.printerSystemName) then
    (false, st,
      [QEvent.queueError ("Job " ++ job.id ++ " rejected: missing printerSystemName")])
  else
    let printerName := (job.printerSystemName).getD ""
    let push : QueueState → Bool × QueueState × List QEvent := fun st1 =>
      let ttl := jsOrNat opts.ttl st1.defaultTTL
      let priority :=
        jsOrStr opts.priority (jsOrStr (job.options.bind JobOptions.priority) "normal")
      let entry : Entry :=
        { id := job.id
          job := job
          printerSystemName := printerName
          status := Status.queued
          priority := priority
          retries := 0
          maxRetries := st1.maxRetries
          nextRetry := none
          createdAt := now
          updatedAt := now
          expiresAt := now + ttl
          error := none }
      let st2 := { st1 with
        jobs := st1.jobs ++ [entry],
        metrics := { st1.metrics with totalEnqueued := st1.metrics.totalEnqueued + 1 } }
      let r := processNext st2 now
      (true, r.1, QEvent.jobQueued entry :: r.2)
    match st.jobs.find? (fun j => j.id = job.id) with
    | some existing =>
      if existing.status = Status.queued ∨ existing.status = Status.processing then
        (false,
          { st with metrics :=
              { st.metrics with totalDeduplicated := st.metrics.totalDeduplicated + 1 } },
          [QEvent.jobDeduplicated job.id])
      else
        push { st with jobs := st.jobs.eraseP (fun j => decide (j.id = job.id)) }
    | none => push st

/-- `JobQueue.trimHistory`: once terminal entries exceed `maxCompletedJobs`,
delete the oldest (by `updatedAt`) terminal entries, by id. -/
def trimHistory (st : QueueState) : QueueState :=
  let terminal := st.jobs.filter fun j => isTerminal j.status
  if terminal.length > st.maxCompletedJobs then
    let sorted := terminal.mergeSort fun a b => a.updatedAt ≤ b.updatedAt
    let toRemove := sorted.take (terminal.length - st.maxCompletedJobs)
    let removeIds := toRemove.map Entry.id
    { st with jobs := st.jobs.filter fun j => !(removeIds.contains j.id) }
  else st

/-- Outcome of the awaited executor callback in `_processJob`. -/
inductive Outcome
  | success
  | failure (msg : String)
deriving DecidableEq, Repr

/-- The continuation of `_processJob` after `await this.executeCallback`:
record the outcome on entry `i`, release the printer, trim history, and run
another scheduling pass. -/
def finishJob (st : QueueState) (now : Nat) (i : Nat) (oc : Outcome) :
    QueueState × List QEvent :=
  match st.jobs[i]? with
  | none => (st, [])
  | some e =>
    let step : QueueState × List QEvent :=
      match oc with
      | Outcome.success =>
        let e' : Entry := { e with status := Status.completed, updatedAt := now, error := none }
        ({ st with
            jobs := st.jobs.set i e',
            metrics := { st.metrics with totalCompleted := st.metrics.totalCompleted + 1 } },
          [QEvent.jobCompleted e'])
      | Outcome.failure msg =>
        if e.retries < e.maxRetries then
          let delay := st.retryDelays.getD (min e.retries (st.retryDelays.length - 1)) 0
          let e' : Entry := { e with
            retries := e.retries + 1
            nextRetry := some (now + delay)
            status := Status.queued
            error := some msg
            updatedAt := now }
          ({ st with jobs := st.jobs.set i e' }, [QEvent.jobRetrying e' delay])
        else
          let e' : Entry := { e with status := Status.failed, error := some msg, updatedAt := now }
          ({ st with
              jobs := st.jobs.set i e',
              metrics := { st.metrics with totalFailed := st.metrics.totalFailed + 1 } },
            [QEvent.jobFailed e'])
    let st1 := step.1
    let st2 := { st1 with processingPrinters := st1.processingPrinters.erase e.printerSystemName }
    let st3 := trimHistory st2
    let r := processNext st3 now
    (r.1, step.2 ++ r.2)

/-- `JobQueue.cancelJob(jobId)`: refuse when the id is unknown or the entry
is processing; otherwise mark it cancelled. -/
def cancelJob (st : QueueState) (now : Nat) (jobId : String) :
    Bool × QueueState × List QEvent :=
  match st.jobs.findIdx? (fun j => j.id = jobId) with
  | none => (false, st, [])
  | some i =>
    match st.jobs[i]? with
    | none => (false, st, [])
    | some e =>
      if e.status = Status.processing then (false, st, [])
      else
        let e' : Entry := { e with
          status := Status.cancelled
          updatedAt := now
          error := some ("Cancelled by user") }
        (true, { st with jobs := st.jobs.set i e' }, [QEvent.jobCancelled e'])

/-- The body of `_expireJobs`' loop on one entry. -/
def expireOne (now : Nat) (e : Entry) : Entry :=
  if e.status = Status.queued ∧ e.expiresAt ≠ 0 ∧ e.expiresAt < now then
    { e with status := Status.expired, updatedAt := now,
             error := some ("Job expired (TTL exceeded)") }
  else e

/-- One iteration of `_expireJobs`' loop: expire a queued entry past its
TTL (bumping the counter and emitting `job-expired`), keep it otherwise. -/
def expireStep (now : Nat) (acc : List Entry × Metrics × List QEvent) (e : Entry) :
    List Entry × Metrics × List QEvent :=
  if e.status = Status.queued ∧ e.expiresAt ≠ 0 ∧ e.expiresAt < now then
    (acc.1 ++ [expireOne now e],
      { acc.2.1 with totalExpired := acc.2.1.totalExpired + 1 },
      acc.2.2 ++ [QEvent.jobExpired (expireOne now e)])
  else (acc.1 ++ [e], acc.2.1, acc.2.2)

/-- `JobQueue._expireJobs`: expire queued entries past their TTL. -/
def expireJobs (st : QueueState) (now : Nat) : QueueState × List QEvent :=
  let r := st.jobs.foldl (expireStep now) ([], st.metrics, [])
  ({ st with jobs := r.1, metrics := r.2.1 }, r.2.2)

/-- The JavaScript object key naming each status. -/
def statusKey : Status → String
  | .queued => "queued"
  | .processing => "processing"
  | .completed => "completed"
  | .failed => "failed"
  | .expired => "expired"
  | .cancelled => "cancelled"

/-- `stats[key]++` guarded by `stats[key] !== undefined`: bump the value at
an existing key of the object, leave the object unchanged otherwise. -/
def bumpKey (l : List (String × Nat)) (k : String) : List (String × Nat) :=
  if (l.find? fun p => p.1 = k).isSome then
    l.map fun p => if p.1 = k then (p.1, p.2 + 1) else p
  else l

/-- The initial `stats` object literal of `getStats()`: it has keys
queued/processing/completed/failed/expired/total only (no `cancelled`). -/
def statsInit (st : QueueState) : List (String × Nat) :=
  [("queued", 0), ("processing", 0), ("completed", 0), ("failed", 0),
   ("expired", 0), ("total", st.jobs.length)]

/-- `JobQueue.getStats()`: the numeric fields of the returned object, in
construction order, plus the copied metrics. -/
def getStats (st : QueueState) : List (String × Nat) × Metrics :=
  let fields := st.jobs.foldl (fun acc j => bumpKey acc (statusKey j.status)) (statsInit st)
  (fields ++ [("activePrinters", st.processingPrinters.card)], st.metrics)

/-- Number of queue entries currently in status `s`. -/
def countStatus (st : QueueState) (s : Status) : Nat :=
  (st.jobs.filter fun j => j.status = s).length

/-! ## Socket client reconnect backoff (src/src/core/socketClient.js) -/

/-- Connection states (`const STATE = {...}`). -/
inductive ConnState
  | disconnected
  | connecting
  | authenticating
  | connected
  | reconnecting
deriving DecidableEq, Repr

/-- `this.reconnectDelays = [5000, 5000, 10000, 10000, 30000, 30000, 60000]`. -/
def reconnectDelays : List Nat := [5000, 5000, 10000, 10000, 30000, 30000, 60000]

/-- `this.maxReconnectDelay = 300000` (5 minutes). -/
def maxReconnectDelay : Nat := 300000

/-- The delay computation of `SocketClient._scheduleReconnect`:
`delayIndex = min(attempts, len - 1)`, then the list entry while
`attempts < len`, else `maxReconnectDelay`. -/
def scheduleDelay (attempts : Nat) : Nat :=
  let delayIndex := min attempts (reconnectDelays.length - 1)
  if attempts < reconnectDelays.length then reconnectDelays.getD delayIndex 0
  else maxReconnectDelay

/-- The reconnect delay as the spec's §4.6 sentence words it:
`delay[min(attempt, len-1)]` over the list, capped at 300 s. Spec-side
definition, for comparison with `scheduleDelay`. -/
def specScheduleDelay (attempt : Nat) : Nat :=
  min (reconnectDelays.getD (min attempt (reconnectDelays.length - 1)) 0) maxReconnectDelay

/-- The socket-client fields `_scheduleReconnect` touches. -/
structure SocketState where
  state : ConnState := ConnState.disconnected
  reconnectAttempts : Nat := 0
  manualDisconnect : Bool := false
  reconnectTimerSet : Bool := false
deriving DecidableEq, Repr

/-- Events the socket client emits during reconnect scheduling. -/
inductive SockEvent
  | stateChange (src dst : ConnState)
  | reconnecting (attempt : Nat) (delay : Nat) (nextRetryAt : Nat)
deriving DecidableEq, Repr

/-- `SocketClient._setState`: assign and emit `state_change` when changed. -/
def setSockState (st : SocketState) (s : ConnState) : SocketState × List SockEvent :=
  ({ st with state := s },
    if st.state ≠ s then [SockEvent.stateChange st.state s] else [])

/-- `SocketClient._scheduleReconnect`: guarded by `manualDisconnect` and an
already-armed timer; computes the delay, increments the attempt counter,
moves to `reconnecting`, emits the `reconnecting` event, arms the timer. -/
def scheduleReconnect (st : SocketState) (now : Nat) : SocketState × List SockEvent :=
  if st.manualDisconnect then (st, [])
  else if st.reconnectTimerSet then (st, [])
  else
    let delay := scheduleDelay st.reconnectAttempts
    let st1 := { st with reconnectAttempts := st.reconnectAttempts + 1 }
    let r := setSockState st1 ConnState.reconnecting
    ({ r.1 with reconnectTimerSet := true },
      r.2 ++ [SockEvent.reconnecting st1.reconnectAttempts delay (now + delay)])

/-! ## Spooler monitor (src/src/core/spoolerMonitor.js) -/

/-- `this.pollInterval = 2000`. -/
def pollIntervalMs : Nat := 2000

/-- `this.maxPollTime = 120000`. -/
def maxPollTimeMs : Nat := 120000

/-- The delay of the no-job-id immediate-completion path (`setTimeout(...,
500)`). -/
def noJobIdDelayMs : Nat := 500

/-- The `osJobId` argument of `monitor` as a JavaScript value. -/
inductive OsJobId
  | missing
  | numId (n : Nat)
  | strId (s : String)
deriving DecidableEq, Repr

/-- `!osJobId && osJobId !== 0`: falsy and not the number zero. -/
def noOsJobId : OsJobId → Bool
  | .missing => true
  | .numId _ => false
  | .strId s => decide (s = "")

/-- What one spooler poll observed: `printer.getJob` threw, returned a falsy
value, returned a status array, or the tick body itself threw (outer catch:
keep polling). -/
inductive Obs
  | threw
  | noInfo
  | statuses (arr : List String)
  | pollError
deriving DecidableEq, Repr

/-- Terminal reports passed to `onStatusChange`. -/
inductive Report
  | completed (msg : String)
  | failed (msg : String)
deriving DecidableEq, Repr

/-- Mutable locals of one monitoring session. -/
structure MonSt where
  sawPrinting : Bool := false
  lastHadError : Bool := false
  lastStatus : Option String := none
deriving DecidableEq, Repr

/-- One `setInterval` tick of `SpoolerMonitor.monitor`: the timeout check,
then the spooler observation's state machine. `elapsed` is the time since
`startTime` at this tick. Returns a terminal report or the updated locals. -/
def monitorTick (elapsed : Nat) (o : Obs) (s : MonSt) : Sum Report MonSt :=
  if elapsed > maxPollTimeMs then
    Sum.inl (Report.completed ("Monitoring timeout — assumed completed"))
  else
    match o with
    | Obs.threw =>
      if s.sawPrinting ∧ ¬ s.lastHadError then
        Sum.inl (Report.completed ("Job finished and removed from spooler"))
      else if s.lastHadError then
        Sum.inl (Report.failed ("Job removed from spooler after error (likely cancelled)"))
      else
        Sum.inl (Report.failed ("Job removed from spooler before printing (cancelled)"))
    | Obs.noInfo =>
      if s.sawPrinting ∧ ¬ s.lastHadError then
        Sum.inl (Report.completed ("Job completed (removed from spooler)"))
      else
        Sum.inl (Report.failed ("Job removed from spooler (cancelled)"))
    | Obs.statuses arr =>
      let s1 := { s with lastStatus := some (String.intercalate "," arr) }
      if arr.contains "PRINTED" then
        Sum.inl (Report.completed ("Printing completed"))
      else if arr.contains "CANCELLED" then
        Sum.inl (Report.failed ("Job cancelled in spooler"))
      else if arr.contains "ABORTED" then
        Sum.inl (Report.failed ("Job aborted by spooler"))
      else if arr.contains "BLOCKED" || arr.contains "ERROR" || arr.contains "OFFLINE" ||
          arr.contains "PAPEROUT" || arr.contains "PAPER_OUT" then
        Sum.inr { s1 with lastHadError := true }
      else if arr.contains "PRINTING" then
        Sum.inr { s1 with sawPrinting := true, lastHadError := false }
      else
        Sum.inr s1
    | Obs.pollError => Sum.inr s

/-- Run the polling loop from tick `k` with the given observation trace;
tick `k` fires at `startTime + pollInterval * (k+1)`. Returns the terminal
report and the tick index at which it was made (`none` iff the fuel ran
out first). -/
def monitorRun (obs : Nat → Obs) : Nat → MonSt → Nat → Option (Report × Nat)
  | 0, _, _ => none
  | fuel + 1, s, k =>
    match monitorTick (pollIntervalMs * (k + 1)) (obs k) s with
    | Sum.inl r => some (r, k)
    | Sum.inr s' => monitorRun obs fuel s' (k + 1)

/-- Result of `SpoolerMonitor.monitor`: either the immediate no-job-id path
(completed after a short delay, zero spooler polls) or the polling loop. -/
inductive MonitorResult
  | immediate (delayMs : Nat) (r : Report)
  | polled (r : Option (Report × Nat))
deriving DecidableEq, Repr

/-- `SpoolerMonitor.monitor(printerName, osJobId, cb)` over an observation
trace; `fuel` bounds the number of ticks examined. -/
def monitor (osJobId : OsJobId) (obs : Nat → Obs) (fuel : Nat) : MonitorResult :=
  if noOsJobId osJobId then
    MonitorResult.immediate noJobIdDelayMs
      (Report.completed ("Sent to printer (no spooler tracking)"))
  else
    MonitorResult.polled (monitorRun obs fuel {} 0)

/-! ## Print executor (src/unnamed/part_006, class PrintExecutor) -/

/-- `setTimeout(..., 30000)` in `downloadFile`: the per-request download
timeout in milliseconds. -/
def downloadTimeoutMs : Nat := 30000

/-- What the HTTP layer answered one `https.get` within `downloadFile`:
a 301/302 redirect, a 200 success, another status code, or a request
error. -/
inductive HttpResp
  | redirect (location : String)
  | ok
  | status (code : Nat)
  | netError (msg : String)
deriving DecidableEq, Repr

/-- Result of `downloadFile` (resolved, or rejected with a message). -/
inductive DlResult
  | ok
  | err (msg : String)
deriving DecidableEq, Repr

/-- `PrintExecutor.downloadFile(url, destPath, _redirectCount)` of the current
executor: refuse once `_redirectCount > 5`, otherwise issue the request and
recurse on 301/302. The HTTP exchange is abstracted as `resp`, indexed by
the redirect count of the request issuing it. -/
def downloadFile (resp : Nat → HttpResp) (redirectCount : Nat) : DlResult :=
  if h : redirectCount > 5 then
    DlResult.err ("Download failed: too many redirects")
  else
    match resp redirectCount with
    | HttpResp.redirect _ => downloadFile resp (redirectCount + 1)
    | HttpResp.ok => DlResult.ok
    | HttpResp.status code => DlResult.err ("Download failed: HTTP " ++ toString code)
    | HttpResp.netError m => DlResult.err ("Download failed: " ++ m)
termination_by 6 - redirectCount
decreasing_by omega

/-- Number of HTTP requests `downloadFile` issues from a given redirect
count (each 301/302 answer causes one further request). -/
def downloadRequests (resp : Nat → HttpResp) (redirectCount : Nat) : Nat :=
  if h : redirectCount > 5 then 0
  else
    match resp redirectCount with
    | HttpResp.redirect _ => 1 + downloadRequests resp (redirectCount + 1)
    | _ => 1
termination_by 6 - redirectCount
decreasing_by omega

/-- Thermal printer builder calls issued by `buildThermalReceipt`, in
order. -/
inductive TCmd
  | alignCenter
  | alignLeft
  | alignRight
  | boldOn
  | boldOff
  | setTextDoubleHeight
  | setTextNormal
  | doPrintln (s : String)
  | newLine
  | drawLine
  | leftRight (l r : String)
  | cut
deriving DecidableEq, Repr

/-- One line of `content.items`. `price` is in cents (the source holds a
decimal amount and renders it with `toFixed(2)`). -/
structure ReceiptItem where
  quantity : Nat
  description : String
  price : Nat
deriving DecidableEq, Repr

/-- The `content` object of a receipt/ticket job (fields the builder
reads). `total` is in cents, like `price`. -/
structure ReceiptContent where
  storeName : Option String := none
  storeAddress : Option String := none
  ticketNumber : Option String := none
  receiptNumber : Option String := none
  clientName : Option String := none
  phone : Option String := none
  items : Option (List ReceiptItem) := none
  total : Option Nat := none
  footer : Option String := none
deriving DecidableEq, Repr

/-- `x.toFixed(2)` on an exact amount of `cents`. -/
def fmt2 (cents : Nat) : String :=
  toString (cents / 100) ++ "." ++
    (if cents % 100 < 10 then "0" else "") ++ toString (cents % 100)

/-- `content.items && content.items.length > 0`. -/
def hasItems (c : ReceiptContent) : Bool :=
  match c.items with
  | some l => decide (l ≠ [])
  | none => false

/-- The closing line of the thermal receipt. -/
def merciLine : String := "Merci de votre visite !"

/-- `PrintExecutor.buildThermalReceipt(printer, content)` of the current
executor, as the ordered list of builder calls it makes. `nowStr` stands
for `new Date().toLocaleString()`. -/
def buildThermalReceipt (nowStr : String) (c : ReceiptContent) : List TCmd :=
  [TCmd.alignCenter, TCmd.boldOn, TCmd.setTextDoubleHeight,
   TCmd.doPrintln (jsOrStr c.storeName "RepairMind"),
   TCmd.setTextNormal, TCmd.boldOff, TCmd.newLine] ++
  (if strTruthy c.storeAddress then [TCmd.doPrintln (c.storeAddress.getD "")] else []) ++
  [TCmd.drawLine] ++
  (if strTruthy c.ticketNumber || strTruthy c.receiptNumber then
    [TCmd.alignCenter, TCmd.boldOn,
     TCmd.doPrintln ("#" ++ jsOrStr c.ticketNumber (jsOrStr c.receiptNumber "")),
     TCmd.boldOff, TCmd.newLine]
  else []) ++
  [TCmd.alignLeft, TCmd.doPrintln ("Date: " ++ nowStr), TCmd.newLine] ++
  (if strTruthy c.clientName then [TCmd.doPrintln ("Client: " ++ c.clientName.getD "")] else []) ++
  (if strTruthy c.phone then [TCmd.doPrintln ("Phone: " ++ c.phone.getD "")] else []) ++
  [TCmd.newLine] ++
  (if hasItems c then
    [TCmd.drawLine] ++
    ((c.items.getD []).map fun it =>
      TCmd.leftRight (toString it.quantity ++ "x " ++ it.description)
        (fmt2 (it.price * it.quantity))) ++
    [TCmd.drawLine]
  else []) ++
  (if c.total.isSome then
    [TCmd.alignRight, TCmd.boldOn, TCmd.setTextDoubleHeight,
     TCmd.doPrintln ("TOTAL: " ++ fmt2 (c.total.getD 0) ++ " EUR"),
     TCmd.setTextNormal, TCmd.boldOff, TCmd.newLine]
  else []) ++
  (if strTruthy c.footer then [TCmd.alignCenter, TCmd.doPrintln (c.footer.getD "")] else []) ++
  (if hasItems c then [TCmd.newLine, TCmd.alignCenter, TCmd.doPrintln merciLine] else []) ++
  [TCmd.newLine, TCmd.newLine, TCmd.cut]

/-! ## Invariants and auxiliary predicates used by the claims -/

/-- At most one `processing` entry per printer: any two entries of the queue
array that are both `processing` are for different printers. -/
abbrev AtMostOneProcessing (st : QueueState) : Prop :=
  st.jobs.Pairwise fun a b =>
    a.status = Status.processing → b.status = Status.processing →
      a.printerSystemName ≠ b.printerSystemName

/-- Every `processing` entry's printer is in the busy set (the queue adds
the printer to `processingPrinters` when it starts the job). -/
abbrev ProcessingMarked (st : QueueState) : Prop :=
  ∀ e ∈ st.jobs, e.status = Status.processing →
    e.printerSystemName ∈ st.processingPrinters

/-- The per-printer mutual-exclusion invariant of the queue. -/
abbrev PrinterInv (st : QueueState) : Prop :=
  AtMostOneProcessing st ∧ ProcessingMarked st

/-- `retries ≤ maxRetries`, and `failed` only at the retry budget. -/
abbrev RetriesInv (st : QueueState) : Prop :=
  ∀ e ∈ st.jobs, e.retries ≤ e.maxRetries ∧
    (e.status = Status.failed → e.retries = e.maxRetries)

/-- Value at a key of a JavaScript-object-as-association-list (0 when the
key is absent). -/
def lookupD (l : List (String × Nat)) (k : String) : Nat :=
  ((l.find? fun p => p.1 = k).map Prod.snd).getD 0

/-- Whether the object has the key at all. -/
def hasKey (l : List (String × Nat)) (k : String) : Bool :=
  (l.find? fun p => p.1 = k).isSome

/-- An observation that does not terminate the monitoring session: either
the tick body threw (outer catch), or a status array without any of the
terminal markers PRINTED/CANCELLED/ABORTED. -/
def nonTerminalObs : Obs → Prop
  | Obs.statuses arr =>
    arr.contains "PRINTED" = false ∧ arr.contains "CANCELLED" = false ∧
      arr.contains "ABORTED" = false
  | Obs.pollError => True
  | _ => False

/-- Concrete wire job used in witnesses and counterexamples. -/
def sampleJob (i p : String) : Job :=
  { id := i, printerSystemName := some p }

/-- Concrete queue entry used in witnesses and counterexamples. -/
def sampleEntry (i p : String) (s : Status) : Entry :=
  { id := i
    job := sampleJob i p
    printerSystemName := p
    status := s
    priority := "normal"
    retries := 0
    maxRetries := 3
    nextRetry := none
    createdAt := 0
    updatedAt := 0
    expiresAt := 1000000
    error := none }

/-- Concrete queue state (one processing entry, its printer busy) used in
witnesses. -/
def busyQueue : QueueState :=
  { jobs := [sampleEntry "j1" "P1" Status.processing],
    processingPrinters := {"P1"} }

/-- The priority of the entry announced by a leading `job-queued` event
(`none` when the call did not enqueue). -/
def queuedPriority (evs : List QEvent) : Option String :=
  match evs with
  | QEvent.jobQueued e :: _ => some e.priority
  | _ => none

/-! ## Supporting lemmas -/

lemma queuedPriority_enqueue (st : QueueState) (now : Nat) (job : Job)
    (opts : EnqueueOptions) :
    (enqueue st now job opts).1 = true →
    queuedPriority (enqueue st now job opts).2.2 =
      some (jsOrStr opts.priority
        (jsOrStr (job.options.bind JobOptions.priority) "normal")) := by
  by_cases hp : strTruthy job.printerSystemName
  · rcases hfind : st.jobs.find? (fun j => j.id = job.id) with _ | e
    · intro _
      simp [enqueue, hp, hfind, queuedPriority]
    · by_cases hst : e.status = Status.queued ∨ e.status = Status.processing
      · intro hres
        exact absurd hres (by simp [enqueue, hp, hfind, hst])
      · intro _
        simp [enqueue, hp, hfind, hst, queuedPriority]
  · intro hres
    exact absurd hres (by simp [enqueue, hp])

lemma enqueue_ignores_wire_priority (st : QueueState) (now : Nat) (job : Job)
    (opts : EnqueueOptions) (p' : Option String) :
    queuedPriority (enqueue st now { job with priority := p' } opts).2.2 =
      queuedPriority (enqueue st now job opts).2.2 ∧
    (enqueue st now { job with priority := p' } opts).1 =
      (enqueue st now job opts).1 := by
  by_cases hp : strTruthy job.printerSystemName
  · rcases hfind : st.jobs.find? (fun j => j.id = job.id) with _ | e
    · constructor <;> simp [enqueue, hp, hfind, queuedPriority]
    · by_cases hst : e.status = Status.queued ∨ e.status = Status.processing
      · constructor <;> simp [enqueue, hp, hfind, hst, queuedPriority]
      · constructor <;> simp [enqueue, hp, hfind, hst, queuedPriority]
  · constructor <;> simp [enqueue, hp, queuedPriority]

lemma downloadRequests_le (resp : Nat → HttpResp) :
    ∀ n c, 6 - c ≤ n → downloadRequests resp c ≤ 6 - c := by
  intro n
  induction n with
  | zero =>
    intro c hc
    have h5 : c > 5 := by omega
    unfold downloadRequests
    simp [h5]
  | succ n ih =>
    intro c hc
    unfold downloadRequests
    by_cases h5 : c > 5
    · simp [h5]
    · rw [dif_neg h5]
      have hrec := ih (c + 1) (by omega)
      split <;> omega

lemma downloadFile_allRedirect :
    ∀ n c, 6 - c ≤ n → downloadFile (fun _ => HttpResp.redirect "next") c =
      DlResult.err ("Download failed: too many redirects") := by
  intro n
  induction n with
  | zero =>
    intro c hc
    have h5 : c > 5 := by omega
    unfold downloadFile
    simp [h5]
  | succ n ih =>
    intro c hc
    unfold downloadFile
    by_cases h5 : c > 5
    · simp [h5]
    · rw [dif_neg h5]
      exact ih (c + 1) (by omega)

lemma find?_map_bump (l : List (String × Nat)) (k k' : String) :
    ((l.map fun p => if p.1 = k' then (p.1, p.2 + 1) else p).find? fun p => p.1 = k) =
      ((l.find? fun p => p.1 = k).map fun p => if p.1 = k' then (p.1, p.2 + 1) else p) := by
  rw [List.find?_map]
  have hcomp : ((fun p : String × Nat => decide (p.1 = k)) ∘
      fun p => if p.1 = k' then (p.1, p.2 + 1) else p) =
      fun p : String × Nat => decide (p.1 = k) := by
    funext p
    by_cases h2 : p.1 = k' <;> simp [Function.comp, h2]
  rw [hcomp]

lemma hasKey_bumpKey (l : List (String × Nat)) (k k' : String) :
    hasKey (bumpKey l k') k = hasKey l k := by
  unfold bumpKey hasKey
  split
  · rw [find?_map_bump]
    cases l.find? fun p => p.1 = k <;> rfl
  · rfl

lemma lookupD_bumpKey_ne (l : List (String × Nat)) (k k' : String) (h : k ≠ k') :
    lookupD (bumpKey l k') k = lookupD l k := by
  unfold bumpKey lookupD
  split
  · rw [find?_map_bump]
    cases hf : l.find? fun p => p.1 = k with
    | none => rfl
    | some p =>
      have hp : p.1 = k := by simpa using List.find?_some hf
      have hp' : ¬ p.1 = k' := by rw [hp]; exact h
      simp [hp']
  · rfl

lemma lookupD_bumpKey_self (l : List (String × Nat)) (k : String)
    (h : hasKey l k = true) :
    lookupD (bumpKey l k) k = lookupD l k + 1 := by
  unfold bumpKey lookupD
  unfold hasKey at h
  rcases hf : l.find? fun p => p.1 = k with _ | p
  · rw [hf] at h; exact absurd h (by simp)
  · rw [hf]
    simp only [Option.isSome_some, if_true]
    rw [find?_map_bump, hf]
    have hp : p.1 = k := by simpa using List.find?_some hf
    simp [hp]

lemma hasKey_statsFold (jobs : List Entry) :
    ∀ (l : List (String × Nat)) (k : String),
      hasKey (jobs.foldl (fun acc j => bumpKey acc (statusKey j.status)) l) k =
        hasKey l k := by
  induction jobs with
  | nil => intro l k; rfl
  | cons j jobs ih =>
    intro l k
    rw [List.foldl_cons, ih, hasKey_bumpKey]

lemma lookupD_statsFold (jobs : List Entry) :
    ∀ (l : List (String × Nat)) (k : String), hasKey l k = true →
      lookupD (jobs.foldl (fun acc j => bumpKey acc (statusKey j.status)) l) k =
        lookupD l k + (jobs.filter fun j => statusKey j.status = k).length := by
  induction jobs with
  | nil => intro l k _; simp
  | cons j jobs ih =>
    intro l k hk
    rw [List.foldl_cons, List.filter_cons]
    by_cases hkey : statusKey j.status = k
    · subst hkey
      rw [ih _ _ (by rw [hasKey_bumpKey]; exact hk),
        lookupD_bumpKey_self l _ hk]
      simp
      omega
    · rw [ih _ _ (by rw [hasKey_bumpKey]; exact hk),
        lookupD_bumpKey_ne l k _ (fun he => hkey he.symm)]
      simp [hkey]

lemma lookupD_append_left (l1 l2 : List (String × Nat)) (k : String)
    (h : hasKey l1 k = true) : lookupD (l1 ++ l2) k = lookupD l1 k := by
  unfold lookupD
  unfold hasKey at h
  rw [List.find?_append]
  cases hf : l1.find? fun p => p.1 = k with
  | none => rw [hf] at h; exact absurd h (by simp)
  | some p => rfl

lemma lookupD_append_right (l1 l2 : List (String × Nat)) (k : String)
    (h : hasKey l1 k = false) : lookupD (l1 ++ l2) k = lookupD l2 k := by
  unfold lookupD
  unfold hasKey at h
  rw [List.find?_append]
  cases hf : l1.find? fun p => p.1 = k with
  | none => rfl
  | some p => rw [hf] at h; exact absurd h (by simp)

lemma filter_statusKey (jobs : List Entry) (s : Status) :
    (jobs.filter fun j => statusKey j.status = statusKey s) =
      jobs.filter fun j => j.status = s :=
  List.filter_congr fun j _ => by cases hs : j.status <;> cases s <;> rfl

lemma getStats_fields_count (st : QueueState) (s : Status)
    (hinit : hasKey (statsInit st) (statusKey s) = true)
    (hzero : lookupD (statsInit st) (statusKey s) = 0) :
    lookupD (getStats st).1 (statusKey s) = countStatus st s := by
  have hkeys : hasKey
      (st.jobs.foldl (fun acc j => bumpKey acc (statusKey j.status)) (statsInit st))
      (statusKey s) = true := by
    rw [hasKey_statsFold]; exact hinit
  show lookupD (_ ++ _) _ = _
  rw [lookupD_append_left _ _ _ hkeys,
    lookupD_statsFold st.jobs (statsInit st) (statusKey s) hinit, hzero,
    filter_statusKey]
  exact Nat.zero_add _

lemma monitorTick_late (elapsed : Nat) (o : Obs) (s : MonSt)
    (h : elapsed > maxPollTimeMs) :
    monitorTick elapsed o s =
      Sum.inl (Report.completed ("Monitoring timeout — assumed completed")) := by
  unfold monitorTick
  rw [if_pos h]

lemma monitorTick_nonterminal (elapsed : Nat) (o : Obs) (s : MonSt)
    (hnt : nonTerminalObs o) (hle : elapsed ≤ maxPollTimeMs) :
    ∃ s', monitorTick elapsed o s = Sum.inr s' := by
  unfold monitorTick
  rw [if_neg (by omega)]
  cases o with
  | threw => exact absurd hnt (by simp [nonTerminalObs])
  | noInfo => exact absurd hnt (by simp [nonTerminalObs])
  | pollError => exact ⟨s, rfl⟩
  | statuses arr =>
    obtain ⟨h1, h2, h3⟩ := hnt
    simp only [h1, h2, h3, Bool.false_eq_true, if_false]
    split
    · exact ⟨_, rfl⟩
    · split
      · exact ⟨_, rfl⟩
      · exact ⟨_, rfl⟩

lemma monitorRun_timeout (obs : Nat → Obs) (hnt : ∀ k, nonTerminalObs (obs k)) :
    ∀ fuel k s, k ≤ 60 → 61 - k ≤ fuel →
      monitorRun obs fuel s k =
        some (Report.completed ("Monitoring timeout — assumed completed"), 60) := by
  intro fuel
  induction fuel with
  | zero => intro k s hk hf; omega
  | succ fuel ih =>
    intro k s hk hf
    by_cases h60 : k = 60
    · subst h60
      have hlate : pollIntervalMs * (60 + 1) > maxPollTimeMs := by
        simp only [pollIntervalMs, maxPollTimeMs]
        omega
      simp only [monitorRun]
      rw [monitorTick_late _ _ _ hlate]
    · have hle : pollIntervalMs * (k + 1) ≤ maxPollTimeMs := by
        simp only [pollIntervalMs, maxPollTimeMs]
        omega
      obtain ⟨s', hs'⟩ := monitorTick_nonterminal _ _ s (hnt k) hle
      simp only [monitorRun]
      rw [hs']
      exact ih (k + 1) s' (by omega) (by omega)

lemma mem_ite_nil {α : Type} (x : α) (p : Prop) [Decidable p] (l : List α) :
    (x ∈ if p then l else []) ↔ p ∧ x ∈ l := by
  by_cases h : p <;> simp [h]

lemma merci_ne_head (t : String) (h : t.data.head? ≠ some 'M') : merciLine ≠ t := by
  intro he
  apply h
  rw [← he]
  rfl

lemma merci_ne_hash (x : String) : merciLine ≠ "#" ++ x := by
  apply merci_ne_head
  have h0 : ("#" ++ x).data.head? = some '#' := rfl
  rw [h0]
  decide

lemma merci_ne_date (x : String) : merciLine ≠ "Date: " ++ x := by
  apply merci_ne_head
  have h0 : ("Date: " ++ x).data.head? = some 'D' := rfl
  rw [h0]
  decide

lemma merci_ne_client (x : String) : merciLine ≠ "Client: " ++ x := by
  apply merci_ne_head
  have h0 : ("Client: " ++ x).data.head? = some 'C' := rfl
  rw [h0]
  decide

lemma merci_ne_phone (x : String) : merciLine ≠ "Phone: " ++ x := by
  apply merci_ne_head
  have h0 : ("Phone: " ++ x).data.head? = some 'P' := rfl
  rw [h0]
  decide

lemma merci_ne_total (x y : String) : merciLine ≠ ("TOTAL: " ++ x) ++ y := by
  apply merci_ne_head
  have h0 : (("TOTAL: " ++ x) ++ y).data.head? = some 'T' := rfl
  rw [h0]
  decide

lemma markProcessing_idem (now : Nat) (e : Entry) :
    markProcessing now (markProcessing now e) = markProcessing now e := rfl

lemma startJob_jobs (st : QueueState) (now : Nat) (i : Nat) (e : Entry)
    (hj : st.jobs[i]? = some e) :
    (startJob st now i).1.jobs = st.jobs.set i (markProcessing now e) := by
  simp [startJob, hj]

lemma startJob_printers (st : QueueState) (now : Nat) (i : Nat) (e : Entry)
    (hj : st.jobs[i]? = some e) :
    (startJob st now i).1.processingPrinters =
      insert e.printerSystemName st.processingPrinters := by
  simp [startJob, hj]

lemma processLoop_cons_none (now i : Nat) (rest : List Nat) (st : QueueState)
    (hj : st.jobs[i]? = none) :
    processLoop now st (i :: rest) = processLoop now st rest := by
  simp [processLoop, hj]

lemma processLoop_cons_skip (now i : Nat) (rest : List Nat) (st : QueueState)
    (e : Entry) (hj : st.jobs[i]? = some e)
    (hb : e.printerSystemName ∈ st.processingPrinters) :
    processLoop now st (i :: rest) = processLoop now st rest := by
  simp [processLoop, hj, hb]

lemma processLoop_cons_start (now i : Nat) (rest : List Nat) (st : QueueState)
    (e : Entry) (hj : st.jobs[i]? = some e)
    (hb : e.printerSystemName ∉ st.processingPrinters) :
    processLoop now st (i :: rest) =
      ((processLoop now (startJob st now i).1 rest).1,
        (startJob st now i).2 ++ (processLoop now (startJob st now i).1 rest).2) := by
  simp [processLoop, hj, hb]

lemma processLoop_mem_rev (now : Nat) :
    ∀ (L : List Nat) (st : QueueState) (e' : Entry),
      e' ∈ (processLoop now st L).1.jobs →
      ∃ e ∈ st.jobs, e' = e ∨ e' = markProcessing now e := by
  intro L
  induction L with
  | nil => intro st e' h; exact ⟨e', h, Or.inl rfl⟩
  | cons i rest ih =>
    intro st e' h
    cases hj : st.jobs[i]? with
    | none => rw [processLoop_cons_none now i rest st hj] at h; exact ih st e' h
    | some e =>
      by_cases hb : e.printerSystemName ∈ st.processingPrinters
      · rw [processLoop_cons_skip now i rest st e hj hb] at h
        exact ih st e' h
      · rw [processLoop_cons_start now i rest st e hj hb] at h
        obtain ⟨a, ha, hcase⟩ := ih (startJob st now i).1 e' h
        rw [startJob_jobs st now i e hj] at ha
        rcases List.mem_or_eq_of_mem_set ha with ha' | heq
        · exact ⟨a, ha', hcase⟩
        · subst heq
          have he : e ∈ st.jobs := List.getElem?_mem hj
          rcases hcase with h1 | h1
          · exact ⟨e, he, Or.inr h1⟩
          · rw [markProcessing_idem] at h1
            exact ⟨e, he, Or.inr h1⟩

lemma processLoop_busy_preserved (now : Nat) :
    ∀ (L : List Nat) (st : QueueState) (i : Nat) (e : Entry),
      st.jobs[i]? = some e →
      e.printerSystemName ∈ st.processingPrinters →
      (processLoop now st L).1.jobs[i]? = some e ∧
      st.processingPrinters ⊆ (processLoop now st L).1.processingPrinters := by
  intro L
  induction L with
  | nil => intro st i e hi hb; exact ⟨hi, Finset.Subset.refl _⟩
  | cons k rest ih =>
    intro st i e hi hb
    cases hk : st.jobs[k]? with
    | none =>
      rw [processLoop_cons_none now k rest st hk]
      exact ih st i e hi hb
    | some ek =>
      by_cases hkb : ek.printerSystemName ∈ st.processingPrinters
      · rw [processLoop_cons_skip now k rest st ek hk hkb]
        exact ih st i e hi hb
      · rw [processLoop_cons_start now k rest st ek hk hkb]
        have hki : k ≠ i := by
          intro hki
          subst hki
          rw [hi] at hk
          cases hk
          exact hkb hb
        have h1 : (startJob st now k).1.jobs[i]? = some e := by
          rw [startJob_jobs st now k ek hk, List.getElem?_set_ne hki]
          exact hi
        have h2 : e.printerSystemName ∈ (startJob st now k).1.processingPrinters := by
          rw [startJob_printers st now k ek hk]
          exact Finset.mem_insert_of_mem hb
        have h3 := ih (startJob st now k).1 i e h1 h2
        refine ⟨h3.1, fun x hx => h3.2 ?_⟩
        rw [startJob_printers st now k ek hk]
        exact Finset.mem_insert_of_mem hx

lemma processLoop_terminal_preserved (now : Nat) :
    ∀ (L : List Nat) (st : QueueState) (i : Nat) (e : Entry),
      st.jobs[i]? = some e → isTerminal e.status = true →
      (∀ k ∈ L, ∀ ek, st.jobs[k]? = some ek → isTerminal ek.status = false) →
      (processLoop now st L).1.jobs[i]? = some e := by
  intro L
  induction L with
  | nil => intro st i e hi _ _; exact hi
  | cons k rest ih =>
    intro st i e hi hterm hL
    cases hk : st.jobs[k]? with
    | none =>
      rw [processLoop_cons_none now k rest st hk]
      exact ih st i e hi hterm fun k' hk' => hL k' (List.mem_cons_of_mem _ hk')
    | some ek =>
      by_cases hkb : ek.printerSystemName ∈ st.processingPrinters
      · rw [processLoop_cons_skip now k rest st ek hk hkb]
        exact ih st i e hi hterm fun k' hk' => hL k' (List.mem_cons_of_mem _ hk')
      · rw [processLoop_cons_start now k rest st ek hk hkb]
        have hknt := hL k (List.mem_cons_self _ _) ek hk
        have hki : k ≠ i := by
          intro hki
          subst hki
          rw [hi] at hk
          cases hk
          rw [hknt] at hterm
          cases hterm
        have h1 : (startJob st now k).1.jobs[i]? = some e := by
          rw [startJob_jobs st now k ek hk, List.getElem?_set_ne hki]
          exact hi
        apply ih _ i e h1 hterm
        intro k' hk' ek' hek'
        rw [startJob_jobs st now k ek hk] at hek'
        by_cases hkk : k = k'
        · subst hkk
          have hklen : k < st.jobs.length := (List.getElem?_eq_some_iff.mp hk).1
          rw [List.getElem?_set_self hklen] at hek'
          cases hek'
          rfl
        · rw [List.getElem?_set_ne hkk] at hek'
          exact hL k' (List.mem_cons_of_mem _ hk') ek' hek'

lemma readyIdxs_not_terminal (st : QueueState) (now : Nat) :
    ∀ k ∈ readyIdxs st now, ∀ ek, st.jobs[k]? = some ek →
      isTerminal ek.status = false := by
  intro k hk ek hek
  unfold readyIdxs at hk
  rw [List.mem_filter] at hk
  obtain ⟨_, hpred⟩ := hk
  rw [hek] at hpred
  have h2 : readyEntry st now ek = true := hpred
  unfold readyEntry at h2
  simp only [Bool.and_eq_true, decide_eq_true_eq] at h2
  rw [h2.1.1]
  rfl

lemma processNext_terminal_preserved (st : QueueState) (now : Nat) (i : Nat)
    (e : Entry) (hi : st.jobs[i]? = some e) (hterm : isTerminal e.status = true) :
    (processNext st now).1.jobs[i]? = some e := by
  unfold processNext
  split
  · apply processLoop_terminal_preserved now _ st i e hi hterm
    intro k hk
    exact readyIdxs_not_terminal st now k (List.mem_mergeSort.mp hk)
  · exact hi

lemma processNext_busy_preserved (st : QueueState) (now : Nat) (i : Nat)
    (e : Entry) (hi : st.jobs[i]? = some e) (hq : e.status = Status.queued)
    (hb : e.printerSystemName ∈ st.processingPrinters) :
    (processNext st now).1.jobs[i]? = some e := by
  unfold processNext
  split
  · exact (processLoop_busy_preserved now _ st i e hi hb).1
  · exact hi

lemma pairwise_set_of {R : Entry → Entry → Prop} (l : List Entry) (i : Nat)
    (v : Entry) (hl : l.Pairwise R) (hv : ∀ b ∈ l, R v b ∧ R b v) :
    (l.set i v).Pairwise R := by
  rw [List.pairwise_iff_getElem] at hl ⊢
  intro a b ha hb hab
  have ha' : a < l.length := by simpa using ha
  have hb' : b < l.length := by simpa using hb
  rw [List.getElem_set, List.getElem_set]
  by_cases hia : i = a <;> by_cases hib : i = b
  · exfalso; omega
  · rw [if_pos hia, if_neg hib]
    exact (hv _ (List.getElem_mem hb')).1
  · rw [if_neg hia, if_pos hib]
    exact (hv _ (List.getElem_mem ha')).2
  · rw [if_neg hia, if_neg hib]
    exact hl a b ha' hb' hab

lemma startJob_printerInv (st : QueueState) (now : Nat) (i : Nat) (e : Entry)
    (hj : st.jobs[i]? = some e)
    (hb : e.printerSystemName ∉ st.processingPrinters)
    (hinv : PrinterInv st) : PrinterInv (startJob st now i).1 := by
  obtain ⟨h1, h2⟩ := hinv
  constructor
  · show (startJob st now i).1.jobs.Pairwise _
    rw [startJob_jobs st now i e hj]
    apply pairwise_set_of _ _ _ h1
    intro b hbmem
    constructor
    · intro _ hbp hcontra
      apply hb
      rw [show (markProcessing now e).printerSystemName = e.printerSystemName from rfl]
        at hcontra
      rw [hcontra]
      exact h2 b hbmem hbp
    · intro hbp _ hcontra
      apply hb
      rw [show (markProcessing now e).printerSystemName = e.printerSystemName from rfl]
        at hcontra
      rw [← hcontra]
      exact h2 b hbmem hbp
  · intro b hbmem hbp
    rw [startJob_jobs st now i e hj] at hbmem
    rw [startJob_printers st now i e hj]
    rcases List.mem_or_eq_of_mem_set hbmem with hm | heq
    · exact Finset.mem_insert_of_mem (h2 b hm hbp)
    · subst heq
      exact Finset.mem_insert_self _ _

lemma processLoop_printerInv (now : Nat) :
    ∀ (L : List Nat) (st : QueueState), PrinterInv st →
      PrinterInv (processLoop now st L).1 := by
  intro L
  induction L with
  | nil => intro st h; exact h
  | cons i rest ih =>
    intro st hinv
    cases hj : st.jobs[i]? with
    | none =>
      rw [processLoop_cons_none now i rest st hj]
      exact ih st hinv
    | some e =>
      by_cases hb : e.printerSystemName ∈ st.processingPrinters
      · rw [processLoop_cons_skip now i rest st e hj hb]
        exact ih st hinv
      · rw [processLoop_cons_start now i rest st e hj hb]
        exact ih _ (startJob_printerInv st now i e hj hb hinv)

lemma processNext_printerInv (st : QueueState) (now : Nat) (hinv : PrinterInv st) :
    PrinterInv (processNext st now).1 := by
  unfold processNext
  split
  · exact processLoop_printerInv now _ st hinv
  · exact hinv

lemma pairwiseProc_append_queued (l0 : List Entry) (entry : Entry)
    (pp : Finset String) (hq : entry.status = Status.queued)
    (h1 : l0.Pairwise fun a b => a.status = Status.processing →
      b.status = Status.processing → a.printerSystemName ≠ b.printerSystemName)
    (h2 : ∀ e ∈ l0, e.status = Status.processing → e.printerSystemName ∈ pp) :
    ((l0 ++ [entry]).Pairwise fun a b => a.status = Status.processing →
      b.status = Status.processing → a.printerSystemName ≠ b.printerSystemName) ∧
    (∀ e ∈ l0 ++ [entry], e.status = Status.processing →
      e.printerSystemName ∈ pp) := by
  constructor
  · apply List.pairwise_append.mpr
    refine ⟨h1, List.pairwise_singleton _ _, ?_⟩
    intro a _ b hbmem _ hbp
    rw [List.mem_singleton] at hbmem
    subst hbmem
    rw [hq] at hbp
    exact (Status.noConfusion hbp)
  · intro b hbmem hbp
    rcases List.mem_append.mp hbmem with hm | hm
    · exact h2 b hm hbp
    · rw [List.mem_singleton] at hm
      subst hm
      rw [hq] at hbp
      exact (Status.noConfusion hbp)

lemma trimHistory_printerInv (st : QueueState) (hinv : PrinterInv st) :
    PrinterInv (trimHistory st) := by
  obtain ⟨h1, h2⟩ := hinv
  unfold trimHistory
  dsimp only
  split
  · constructor
    · exact List.Pairwise.sublist (List.filter_sublist _) h1
    · intro b hb hbp
      exact h2 b (List.mem_of_mem_filter hb) hbp
  · exact ⟨h1, h2⟩

lemma enqueue_printerInv (st : QueueState) (now : Nat) (job : Job)
    (opts : EnqueueOptions) (hinv : PrinterInv st) :
    PrinterInv (enqueue st now job opts).2.1 := by
  obtain ⟨h1, h2⟩ := hinv
  by_cases hp : strTruthy job.printerSystemName
  · rcases hfind : st.jobs.find? (fun j => j.id = job.id) with _ | e
    · simp only [enqueue, hp, hfind]
      simp only [Bool.not_true, Bool.false_eq_true, if_false]
      apply processNext_printerInv
      exact pairwiseProc_append_queued st.jobs _ st.processingPrinters rfl h1 h2
    · by_cases hst : e.status = Status.queued ∨ e.status = Status.processing
      · simp only [enqueue, hp, hfind, hst]
        simp only [Bool.not_true, Bool.false_eq_true, if_false, if_true]
        exact ⟨h1, h2⟩
      · simp only [enqueue, hp, hfind, hst]
        simp only [Bool.not_true, Bool.false_eq_true, if_false]
        apply processNext_printerInv
        exact pairwiseProc_append_queued _ _ st.processingPrinters rfl
          (List.Pairwise.sublist (List.eraseP_sublist _) h1)
          (fun b hb hbp => h2 b ((List.eraseP_sublist _).subset hb) hbp)
  · simp only [enqueue, hp]
    simp only [Bool.not_false, if_true]
    exact ⟨h1, h2⟩

lemma finish_core (l : List Entry) (pp : Finset String) (i : Nat) (e e' : Entry)
    (hj : l[i]? = some e) (hproc : e.status = Status.processing)
    (hne : e'.status ≠ Status.processing)
    (h1 : l.Pairwise fun a b => a.status = Status.processing →
      b.status = Status.processing → a.printerSystemName ≠ b.printerSystemName)
    (h2 : ∀ b ∈ l, b.status = Status.processing → b.printerSystemName ∈ pp) :
    ((l.set i e').Pairwise fun a b => a.status = Status.processing →
      b.status = Status.processing → a.printerSystemName ≠ b.printerSystemName) ∧
    (∀ b ∈ l.set i e', b.status = Status.processing →
      b.printerSystemName ∈ pp.erase e.printerSystemName) := by
  have hi_lt : i < l.length := (List.getElem?_eq_some_iff.mp hj).1
  have hei : l[i] = e := (List.getElem?_eq_some_iff.mp hj).2
  constructor
  · apply pairwise_set_of _ _ _ h1
    intro b _
    exact ⟨fun ha _ => absurd ha hne, fun _ ha => absurd ha hne⟩
  · intro b hbmem hbp
    obtain ⟨q, hq, hbq⟩ := List.mem_iff_getElem.mp hbmem
    rw [List.length_set] at hq
    by_cases hqi : q = i
    · subst hqi
      rw [List.getElem_set, if_pos rfl] at hbq
      subst hbq
      exact absurd hbp hne
    · have hbq' : l[q] = b := by
        rw [List.getElem_set, if_neg (fun h => hqi h.symm)] at hbq
        exact hbq
      have hbmem' : b ∈ l := hbq' ▸ List.getElem_mem hq
      have hRne : b.printerSystemName ≠ e.printerSystemName := by
        rcases Nat.lt_or_ge q i with hlt | hge
        · have hR := (List.pairwise_iff_getElem.mp h1) q i hq hi_lt hlt
          rw [hbq', hei] at hR
          exact hR hbp hproc
        · have hgt : i < q := by omega
          have hR := (List.pairwise_iff_getElem.mp h1) i q hi_lt hq hgt
          rw [hbq', hei] at hR
          exact fun hc => hR hproc hbp hc.symm
      exact Finset.mem_erase.mpr ⟨hRne, h2 b hbmem' hbp⟩

lemma finishJob_printerInv (st : QueueState) (now : Nat) (i : Nat) (oc : Outcome)
    (e : Entry) (hj : st.jobs[i]? = some e) (hproc : e.status = Status.processing)
    (hinv : PrinterInv st) : PrinterInv (finishJob st now i oc).1 := by
  obtain ⟨h1, h2⟩ := hinv
  have tail : ∀ st' : QueueState, PrinterInv st' →
      PrinterInv (processNext (trimHistory st') now).1 := fun st' h =>
    processNext_printerInv _ _ (trimHistory_printerInv _ h)
  cases oc with
  | success =>
    have hstate : (finishJob st now i Outcome.success).1 =
        (processNext (trimHistory { st with
          jobs := st.jobs.set i
            { e with status := Status.completed, updatedAt := now, error := none },
          metrics := { st.metrics with totalCompleted := st.metrics.totalCompleted + 1 },
          processingPrinters :=
            st.processingPrinters.erase e.printerSystemName }) now).1 := by
      simp [finishJob, hj]
    rw [hstate]
    apply tail
    exact finish_core st.jobs st.processingPrinters i e _ hj hproc
      (fun h => Status.noConfusion h) h1 h2
  | failure msg =>
    by_cases hret : e.retries < e.maxRetries
    · have hstate : (finishJob st now i (Outcome.failure msg)).1 =
          (processNext (trimHistory { st with
            jobs := st.jobs.set i
              { e with
                retries := e.retries + 1
                nextRetry := some (now +
                  st.retryDelays.getD (min e.retries (st.retryDelays.length - 1)) 0)
                status := Status.queued
                error := some msg
                updatedAt := now },
            processingPrinters :=
              st.processingPrinters.erase e.printerSystemName }) now).1 := by
        simp [finishJob, hj, hret]
      rw [hstate]
      apply tail
      exact finish_core st.jobs st.processingPrinters i e _ hj hproc
        (fun h => Status.noConfusion h) h1 h2
    · have hstate : (finishJob st now i (Outcome.failure msg)).1 =
          (processNext (trimHistory { st with
            jobs := st.jobs.set i
              { e with status := Status.failed, error := some msg, updatedAt := now },
            metrics := { st.metrics with totalFailed := st.metrics.totalFailed + 1 },
            processingPrinters :=
              st.processingPrinters.erase e.printerSystemName }) now).1 := by
        simp [finishJob, hj, hret]
      rw [hstate]
      apply tail
      exact finish_core st.jobs st.processingPrinters i e _ hj hproc
        (fun h => Status.noConfusion h) h1 h2

lemma expireFold_jobs (now : Nat) :
    ∀ (l : List Entry) (acc : List Entry × Metrics × List QEvent),
      (l.foldl (expireStep now) acc).1 = acc.1 ++ l.map (expireOne now) := by
  intro l
  induction l with
  | nil => intro acc; simp
  | cons e l ih =>
    intro acc
    rw [List.foldl_cons]
    by_cases hcond : e.status = Status.queued ∧ e.expiresAt ≠ 0 ∧ e.expiresAt < now
    · have hstep : expireStep now acc e =
          (acc.1 ++ [expireOne now e],
            { acc.2.1 with totalExpired := acc.2.1.totalExpired + 1 },
            acc.2.2 ++ [QEvent.jobExpired (expireOne now e)]) := by
        simp [expireStep, hcond]
      rw [hstep, ih]
      simp
    · have hstep : expireStep now acc e = (acc.1 ++ [e], acc.2.1, acc.2.2) := by
        simp [expireStep, hcond]
      have hone : expireOne now e = e := by
        simp [expireOne, hcond]
      rw [hstep, ih, List.map_cons, hone]
      simp

lemma expireJobs_jobs (st : QueueState) (now : Nat) :
    (expireJobs st now).1.jobs = st.jobs.map (expireOne now) := by
  show (st.jobs.foldl (expireStep now) ([], st.metrics, [])).1 = _
  rw [expireFold_jobs]
  simp

lemma expireOne_printer (now : Nat) (e : Entry) :
    (expireOne now e).printerSystemName = e.printerSystemName := by
  unfold expireOne
  split <;> rfl

lemma expireOne_proc (now : Nat) (e : Entry) :
    (expireOne now e).status = Status.processing ↔
      e.status = Status.processing := by
  unfold expireOne
  split
  case isTrue h =>
    constructor
    · intro h'; exact Status.noConfusion h'
    · intro h'
      obtain ⟨hq, _⟩ := h
      rw [h'] at hq
      exact Status.noConfusion hq
  case isFalse h => exact Iff.rfl

lemma expireOne_terminal_id (now : Nat) (e : Entry)
    (ht : isTerminal e.status = true) : expireOne now e = e := by
  unfold expireOne
  rw [if_neg]
  rintro ⟨hq, _⟩
  rw [hq] at ht
  cases ht

lemma expireJobs_printerInv (st : QueueState) (now : Nat) (hinv : PrinterInv st) :
    PrinterInv (expireJobs st now).1 := by
  obtain ⟨h1, h2⟩ := hinv
  constructor
  · show (expireJobs st now).1.jobs.Pairwise _
    rw [expireJobs_jobs]
    apply List.pairwise_map.mpr
    apply h1.imp
    intro a b hab hfa hfb
    rw [expireOne_printer, expireOne_printer]
    exact hab ((expireOne_proc now a).mp hfa) ((expireOne_proc now b).mp hfb)
  · intro b hbmem hbp
    rw [expireJobs_jobs] at hbmem
    obtain ⟨a, ha, rfl⟩ := List.mem_map.mp hbmem
    rw [expireOne_printer]
    exact h2 a ha ((expireOne_proc now a).mp hbp)

lemma cancelJob_printerInv (st : QueueState) (now : Nat) (jobId : String)
    (hinv : PrinterInv st) : PrinterInv (cancelJob st now jobId).2.1 := by
  obtain ⟨h1, h2⟩ := hinv
  cases hfi : st.jobs.findIdx? (fun j => j.id = jobId) with
  | none =>
    have hstate : (cancelJob st now jobId).2.1 = st := by simp [cancelJob, hfi]
    rw [hstate]
    exact ⟨h1, h2⟩
  | some i =>
    cases hj : st.jobs[i]? with
    | none =>
      have hstate : (cancelJob st now jobId).2.1 = st := by simp [cancelJob, hfi, hj]
      rw [hstate]
      exact ⟨h1, h2⟩
    | some e =>
      by_cases hproc : e.status = Status.processing
      · have hstate : (cancelJob st now jobId).2.1 = st := by
          simp [cancelJob, hfi, hj, hproc]
        rw [hstate]
        exact ⟨h1, h2⟩
      · have hstate : (cancelJob st now jobId).2.1 = { st with
            jobs := st.jobs.set i { e with
              status := Status.cancelled
              updatedAt := now
              error := some ("Cancelled by user") } } := by
          simp [cancelJob, hfi, hj, hproc]
        rw [hstate]
        constructor
        · show (st.jobs.set i _).Pairwise _
          apply pairwise_set_of _ _ _ h1
          intro b _
          exact ⟨fun ha => Status.noConfusion ha, fun _ ha => Status.noConfusion ha⟩
        · intro b hbmem hbp
          rcases List.mem_or_eq_of_mem_set hbmem with hm | heq
          · exact h2 b hm hbp
          · subst heq
            exact absurd hbp (fun h => Status.noConfusion h)

lemma processLoop_retriesInv (now : Nat) (L : List Nat) (st : QueueState)
    (hinv : RetriesInv st) : RetriesInv (processLoop now st L).1 := by
  intro e' he'
  obtain ⟨e, he, hcase⟩ := processLoop_mem_rev now L st e' he'
  rcases hcase with h | h
  · rw [h]
    exact hinv e he
  · rw [h]
    obtain ⟨hr, _⟩ := hinv e he
    exact ⟨hr, fun hfail => Status.noConfusion hfail⟩

lemma processNext_retriesInv (st : QueueState) (now : Nat)
    (hinv : RetriesInv st) : RetriesInv (processNext st now).1 := by
  unfold processNext
  split
  · exact processLoop_retriesInv now _ st hinv
  · exact hinv

lemma trimHistory_retriesInv (st : QueueState) (hinv : RetriesInv st) :
    RetriesInv (trimHistory st) := by
  unfold trimHistory
  dsimp only
  split
  · intro e he
    exact hinv e (List.mem_of_mem_filter he)
  · exact hinv

lemma enqueue_retriesInv (st : QueueState) (now : Nat) (job : Job)
    (opts : EnqueueOptions) (hinv : RetriesInv st) :
    RetriesInv (enqueue st now job opts).2.1 := by
  by_cases hp : strTruthy job.printerSystemName
  · rcases hfind : st.jobs.find? (fun j => j.id = job.id) with _ | e
    · simp only [enqueue, hp, hfind]
      simp only [Bool.not_true, Bool.false_eq_true, if_false]
      apply processNext_retriesInv
      intro e' he'
      rcases List.mem_append.mp he' with hm | hm
      · exact hinv e' hm
      · rw [List.mem_singleton] at hm
        subst hm
        exact ⟨Nat.zero_le _, fun h => Status.noConfusion h⟩
    · by_cases hst : e.status = Status.queued ∨ e.status = Status.processing
      · simp only [enqueue, hp, hfind, hst]
        simp only [Bool.not_true, Bool.false_eq_true, if_false, if_true]
        exact hinv
      · simp only [enqueue, hp, hfind, hst]
        simp only [Bool.not_true, Bool.false_eq_true, if_false]
        apply processNext_retriesInv
        intro e' he'
        rcases List.mem_append.mp he' with hm | hm
        · exact hinv e' ((List.eraseP_sublist _).subset hm)
        · rw [List.mem_singleton] at hm
          subst hm
          exact ⟨Nat.zero_le _, fun h => Status.noConfusion h⟩
  · simp only [enqueue, hp]
    simp only [Bool.not_false, if_true]
    exact hinv

lemma finishJob_retriesInv (st : QueueState) (now : Nat) (i : Nat) (oc : Outcome)
    (hinv : RetriesInv st) : RetriesInv (finishJob st now i oc).1 := by
  cases hj : st.jobs[i]? with
  | none =>
    have hstate : (finishJob st now i oc).1 = st := by
      simp [finishJob, hj]
    rw [hstate]
    exact hinv
  | some e =>
    have tail : ∀ st' : QueueState, RetriesInv st' →
        RetriesInv (processNext (trimHistory st') now).1 := fun st' h =>
      processNext_retriesInv _ _ (trimHistory_retriesInv _ h)
    have hset : ∀ e' : Entry, e'.retries ≤ e'.maxRetries →
        (e'.status = Status.failed → e'.retries = e'.maxRetries) →
        RetriesInv { st with jobs := st.jobs.set i e' } := by
      intro e' h1 h2 b hb
      rcases List.mem_or_eq_of_mem_set hb with hm | heq
      · exact hinv b hm
      · subst heq
        exact ⟨h1, h2⟩
    obtain ⟨hr, hf⟩ := hinv e (List.getElem?_mem hj)
    cases oc with
    | success =>
      have hstate : (finishJob st now i Outcome.success).1 =
          (processNext (trimHistory { st with
            jobs := st.jobs.set i
              { e with status := Status.completed, updatedAt := now, error := none },
            metrics := { st.metrics with
              totalCompleted := st.metrics.totalCompleted + 1 },
            processingPrinters :=
              st.processingPrinters.erase e.printerSystemName }) now).1 := by
        simp [finishJob, hj]
      rw [hstate]
      apply tail
      exact hset _ hr (fun h => Status.noConfusion h)
    | failure msg =>
      by_cases hret : e.retries < e.maxRetries
      · have hstate : (finishJob st now i (Outcome.failure msg)).1 =
            (processNext (trimHistory { st with
              jobs := st.jobs.set i
                { e with
                  retries := e.retries + 1
                  nextRetry := some (now +
                    st.retryDelays.getD (min e.retries (st.retryDelays.length - 1)) 0)
                  status := Status.queued
                  error := some msg
                  updatedAt := now },
              processingPrinters :=
                st.processingPrinters.erase e.printerSystemName }) now).1 := by
          simp [finishJob, hj, hret]
        rw [hstate]
        apply tail
        exact hset _ hret (fun h => Status.noConfusion h)
      · have hstate : (finishJob st now i (Outcome.failure msg)).1 =
            (processNext (trimHistory { st with
              jobs := st.jobs.set i
                { e with status := Status.failed, error := some msg, updatedAt := now },
              metrics := { st.metrics with totalFailed := st.metrics.totalFailed + 1 },
              processingPrinters :=
                st.processingPrinters.erase e.printerSystemName }) now).1 := by
          simp [finishJob, hj, hret]
        rw [hstate]
        apply tail
        exact hset _ hr (fun _ => by dsimp only; omega)

lemma cancelJob_retriesInv (st : QueueState) (now : Nat) (jobId : String)
    (hinv : RetriesInv st) : RetriesInv (cancelJob st now jobId).2.1 := by
  cases hfi : st.jobs.findIdx? (fun j => j.id = jobId) with
  | none =>
    have hstate : (cancelJob st now jobId).2.1 = st := by simp [cancelJob, hfi]
    rw [hstate]; exact hinv
  | some i =>
    cases hj : st.jobs[i]? with
    | none =>
      have hstate : (cancelJob st now jobId).2.1 = st := by simp [cancelJob, hfi, hj]
      rw [hstate]; exact hinv
    | some e =>
      by_cases hproc : e.status = Status.processing
      · have hstate : (cancelJob st now jobId).2.1 = st := by
          simp [cancelJob, hfi, hj, hproc]
        rw [hstate]; exact hinv
      · have hstate : (cancelJob st now jobId).2.1 = { st with
            jobs := st.jobs.set i { e with
              status := Status.cancelled
              updatedAt := now
              error := some ("Cancelled by user") } } := by
          simp [cancelJob, hfi, hj, hproc]
        rw [hstate]
        intro b hb
        rcases List.mem_or_eq_of_mem_set hb with hm | heq
        · exact hinv b hm
        · subst heq
          obtain ⟨hr, _⟩ := hinv e (List.getElem?_mem hj)
          exact ⟨hr, fun h => Status.noConfusion h⟩

lemma expireOne_retries (now : Nat) (e : Entry) :
    (expireOne now e).retries = e.retries ∧
    (expireOne now e).maxRetries = e.maxRetries := by
  unfold expireOne
  split <;> exact ⟨rfl, rfl⟩

lemma expireOne_failed (now : Nat) (e : Entry)
    (h : (expireOne now e).status = Status.failed) : e.status = Status.failed := by
  unfold expireOne at h
  split at h
  · exact Status.noConfusion h
  · exact h

lemma expireJobs_retriesInv (st : QueueState) (now : Nat)
    (hinv : RetriesInv st) : RetriesInv (expireJobs st now).1 := by
  intro b hb
  rw [expireJobs_jobs] at hb
  obtain ⟨a, ha, rfl⟩ := List.mem_map.mp hb
  obtain ⟨hr, hf⟩ := hinv a ha
  obtain ⟨h1, h2⟩ := expireOne_retries now a
  rw [h1, h2]
  exact ⟨hr, fun h => hf (expireOne_failed now a h)⟩

lemma processLoop_events (now : Nat) :
    ∀ (L : List Nat) (st : QueueState) (ev : QEvent),
      ev ∈ (processLoop now st L).2 → ∃ e, ev = QEvent.jobProcessing e := by
  intro L
  induction L with
  | nil => intro st ev h; cases h
  | cons i rest ih =>
    intro st ev h
    cases hj : st.jobs[i]? with
    | none =>
      rw [processLoop_cons_none now i rest st hj] at h
      exact ih st ev h
    | some e =>
      by_cases hb : e.printerSystemName ∈ st.processingPrinters
      · rw [processLoop_cons_skip now i rest st e hj hb] at h
        exact ih st ev h
      · rw [processLoop_cons_start now i rest st e hj hb] at h
        have hstart : (startJob st now i).2 =
            [QEvent.jobProcessing (markProcessing now e)] := by
          simp [startJob, hj]
        rw [hstart] at h
        rcases List.mem_append.mp h with hm | hm
        · rw [List.mem_singleton] at hm
          exact ⟨_, hm⟩
        · exact ih _ ev hm

lemma processNext_events (st : QueueState) (now : Nat) (ev : QEvent)
    (h : ev ∈ (processNext st now).2) : ∃ e, ev = QEvent.jobProcessing e := by
  unfold processNext at h
  split at h
  · exact processLoop_events now _ st ev h
  · cases h

lemma finishJob_retry_events (st : QueueState) (now i : Nat) (msg : String)
    (e : Entry) (hj : st.jobs[i]? = some e) (hret : e.retries < e.maxRetries) :
    (finishJob st now i (Outcome.failure msg)).2.head? =
      some (QEvent.jobRetrying
        { e with
          retries := e.retries + 1
          nextRetry := some (now +
            st.retryDelays.getD (min e.retries (st.retryDelays.length - 1)) 0)
          status := Status.queued
          error := some msg
          updatedAt := now }
        (st.retryDelays.getD (min e.retries (st.retryDelays.length - 1)) 0)) ∧
    (∀ ev ∈ (finishJob st now i (Outcome.failure msg)).2, ∀ x : Entry,
      ev ≠ QEvent.jobFailed x) := by
  have hev : (finishJob st now i (Outcome.failure msg)).2 =
      QEvent.jobRetrying
        { e with
          retries := e.retries + 1
          nextRetry := some (now +
            st.retryDelays.getD (min e.retries (st.retryDelays.length - 1)) 0)
          status := Status.queued
          error := some msg
          updatedAt := now }
        (st.retryDelays.getD (min e.retries (st.retryDelays.length - 1)) 0) ::
      (processNext (trimHistory { st with
        jobs := st.jobs.set i
          { e with
            retries := e.retries + 1
            nextRetry := some (now +
              st.retryDelays.getD (min e.retries (st.retryDelays.length - 1)) 0)
            status := Status.queued
            error := some msg
            updatedAt := now },
        processingPrinters :=
          st.processingPrinters.erase e.printerSystemName }) now).2 := by
    simp [finishJob, hj, hret]
  rw [hev]
  refine ⟨rfl, ?_⟩
  intro ev hmem x
  rcases List.mem_cons.mp hmem with heq | hm
  · rw [heq]
    intro hcontra
    exact QEvent.noConfusion hcontra
  · obtain ⟨e'', heq⟩ := processNext_events _ now ev hm
    rw [heq]
    intro hcontra
    exact QEvent.noConfusion hcontra

lemma processNext_mem_rev (st : QueueState) (now : Nat) (e' : Entry)
    (h : e' ∈ (processNext st now).1.jobs) :
    ∃ e ∈ st.jobs, e' = e ∨ e' = markProcessing now e := by
  unfold processNext at h
  split at h
  · exact processLoop_mem_rev now _ st e' h
  · exact ⟨e', h, Or.inl rfl⟩

lemma processNext_terminal_mem (st : QueueState) (now : Nat) (e : Entry)
    (he : e ∈ st.jobs) (ht : isTerminal e.status = true) :
    e ∈ (processNext st now).1.jobs := by
  obtain ⟨q, hq, hqe⟩ := List.mem_iff_getElem.mp he
  have hq' : st.jobs[q]? = some e := by
    rw [List.getElem?_eq_getElem hq, hqe]
  exact List.getElem?_mem (processNext_terminal_preserved st now q e hq' ht)

lemma mark_not_terminal (now : Nat) (e : Entry) :
    isTerminal (markProcessing now e).status = false := rfl

lemma enqueue_terminal_back (st : QueueState) (now : Nat) (job : Job)
    (opts : EnqueueOptions) :
    ∀ e' ∈ (enqueue st now job opts).2.1.jobs, isTerminal e'.status = true →
      e' ∈ st.jobs := by
  intro e' he' ht
  by_cases hp : strTruthy job.printerSystemName
  · rcases hfind : st.jobs.find? (fun j => j.id = job.id) with _ | e0
    · simp only [enqueue, hp, hfind] at he'
      simp only [Bool.not_true, Bool.false_eq_true, if_false] at he'
      obtain ⟨a, ha, hcase⟩ := processNext_mem_rev _ now e' he'
      rcases hcase with h | h
      · rw [h] at ht ⊢
        rcases List.mem_append.mp ha with hm | hm
        · exact hm
        · rw [List.mem_singleton] at hm
          rw [hm] at ht
          cases ht
      · rw [h, mark_not_terminal] at ht
        cases ht
    · by_cases hst : e0.status = Status.queued ∨ e0.status = Status.processing
      · simp only [enqueue, hp, hfind, hst] at he'
        simp only [Bool.not_true, Bool.false_eq_true, if_false, if_true] at he'
        exact he'
      · simp only [enqueue, hp, hfind, hst] at he'
        simp only [Bool.not_true, Bool.false_eq_true, if_false] at he'
        obtain ⟨a, ha, hcase⟩ := processNext_mem_rev _ now e' he'
        rcases hcase with h | h
        · rw [h] at ht ⊢
          rcases List.mem_append.mp ha with hm | hm
          · exact (List.eraseP_sublist _).subset hm
          · rw [List.mem_singleton] at hm
            rw [hm] at ht
            cases ht
        · rw [h, mark_not_terminal] at ht
          cases ht
  · simp only [enqueue, hp] at he'
    simp only [Bool.not_false, if_true] at he'
    exact he'

lemma enqueue_terminal_forward (st : QueueState) (now : Nat) (job : Job)
    (opts : EnqueueOptions) :
    ∀ et ∈ st.jobs, isTerminal et.status = true →
      et ∈ (enqueue st now job opts).2.1.jobs ∨ et.id = job.id := by
  intro et he ht
  by_cases hp : strTruthy job.printerSystemName
  · rcases hfind : st.jobs.find? (fun j => j.id = job.id) with _ | e0
    · left
      simp only [enqueue, hp, hfind]
      simp only [Bool.not_true, Bool.false_eq_true, if_false]
      exact processNext_terminal_mem _ now et (List.mem_append_left _ he) ht
    · by_cases hst : e0.status = Status.queued ∨ e0.status = Status.processing
      · left
        simp only [enqueue, hp, hfind, hst]
        simp only [Bool.not_true, Bool.false_eq_true, if_false, if_true]
        exact he
      · by_cases hpe : et.id = job.id
        · exact Or.inr hpe
        · left
          simp only [enqueue, hp, hfind, hst]
          simp only [Bool.not_true, Bool.false_eq_true, if_false]
          apply processNext_terminal_mem _ now et _ ht
          apply List.mem_append_left
          exact (List.mem_eraseP_of_neg (by simpa using hpe)).mpr he
  · left
    simp only [enqueue, hp]
    simp only [Bool.not_false, if_true]
    exact he

lemma trimHistory_subset (st : QueueState) :
    (trimHistory st).jobs ⊆ st.jobs := by
  unfold trimHistory
  dsimp only
  split
  · exact fun a ha => List.mem_of_mem_filter ha
  · exact fun _ h => h

lemma finishJob_terminal_back (st : QueueState) (now : Nat) (i : Nat)
    (oc : Outcome) (e : Entry) (hj : st.jobs[i]? = some e) :
    ∀ e' ∈ (finishJob st now i oc).1.jobs, isTerminal e'.status = true →
      e' ∈ st.jobs ∨ e'.id = e.id := by
  have main : ∀ (st2 : QueueState) (eNew : Entry), st2.jobs = st.jobs.set i eNew →
      eNew.id = e.id →
      ∀ e' ∈ (processNext (trimHistory st2) now).1.jobs,
        isTerminal e'.status = true → e' ∈ st.jobs ∨ e'.id = e.id := by
    intro st2 eNew hst2 hid e' he' ht
    obtain ⟨a, ha, hcase⟩ := processNext_mem_rev _ now e' he'
    rcases hcase with h | h
    · rw [h]
      have ha2 : a ∈ st2.jobs := trimHistory_subset st2 ha
      rw [hst2] at ha2
      rcases List.mem_or_eq_of_mem_set ha2 with hm | heq
      · exact Or.inl hm
      · subst heq
        exact Or.inr hid
    · rw [h, mark_not_terminal] at ht
      cases ht
  cases oc with
  | success =>
    have hstate : (finishJob st now i Outcome.success).1 =
        (processNext (trimHistory { st with
          jobs := st.jobs.set i
            { e with status := Status.completed, updatedAt := now, error := none },
          metrics := { st.metrics with
            totalCompleted := st.metrics.totalCompleted + 1 },
          processingPrinters :=
            st.processingPrinters.erase e.printerSystemName }) now).1 := by
      simp [finishJob, hj]
    rw [hstate]
    exact main _ _ rfl rfl
  | failure msg =>
    by_cases hret : e.retries < e.maxRetries
    · have hstate : (finishJob st now i (Outcome.failure msg)).1 =
          (processNext (trimHistory { st with
            jobs := st.jobs.set i
              { e with
                retries := e.retries + 1
                nextRetry := some (now +
                  st.retryDelays.getD (min e.retries (st.retryDelays.length - 1)) 0)
                status := Status.queued
                error := some msg
                updatedAt := now },
            processingPrinters :=
              st.processingPrinters.erase e.printerSystemName }) now).1 := by
        simp [finishJob, hj, hret]
      rw [hstate]
      exact main _ _ rfl rfl
    · have hstate : (finishJob st now i (Outcome.failure msg)).1 =
          (processNext (trimHistory { st with
            jobs := st.jobs.set i
              { e with status := Status.failed, error := some msg, updatedAt := now },
            metrics := { st.metrics with totalFailed := st.metrics.totalFailed + 1 },
            processingPrinters :=
              st.processingPrinters.erase e.printerSystemName }) now).1 := by
        simp [finishJob, hj, hret]
      rw [hstate]
      exact main _ _ rfl rfl

/-! ## Claim theorems -/

/-- Claim C5: a PDF download performed while rendering a job has a
30-second per-request timeout and follows at most 5 redirects within one
attempt (at most 6 HTTP requests in total); a target answering with six
consecutive 301 redirects makes the attempt fail with the
"too many redirects" error instead of continuing. -/
theorem C5_download_timeout_and_redirect_cap :
    downloadTimeoutMs = 30000 ∧
    (∀ resp : Nat → HttpResp, downloadRequests resp 0 ≤ 6) ∧
    downloadFile (fun _ => HttpResp.redirect "next") 0 =
      DlResult.err ("Download failed: too many redirects") := by
  refine ⟨rfl, fun resp => ?_, downloadFile_allRedirect 6 0 (by omega)⟩
  simpa using downloadRequests_le resp 6 0 (by omega)

/-- Claim C7: invoked without an `osJobId` the Spooler Monitor reports
completed after a short (500 ms) delay without ever polling the OS spooler;
with an `osJobId` it runs the polling loop on a 2-second interval with a
120-second budget: ticks past the deadline never consult the spooler, and
when the deadline passes without a terminal observation the monitor
reports completed (at tick 60, the first tick beyond 120 s) and
terminates. -/
theorem C7_spooler_monitor (obs : Nat → Obs) (fuel n : Nat)
    (hnt : ∀ k, nonTerminalObs (obs k)) (hfuel : 61 ≤ fuel) :
    monitor OsJobId.missing obs fuel =
      MonitorResult.immediate noJobIdDelayMs
        (Report.completed ("Sent to printer (no spooler tracking)")) ∧
    pollIntervalMs = 2000 ∧ maxPollTimeMs = 120000 ∧ noJobIdDelayMs = 500 ∧
    monitor (OsJobId.numId n) obs fuel =
      MonitorResult.polled (monitorRun obs fuel {} 0) ∧
    (∀ k o o' s, maxPollTimeMs < pollIntervalMs * (k + 1) →
      monitorTick (pollIntervalMs * (k + 1)) o s =
        monitorTick (pollIntervalMs * (k + 1)) o' s) ∧
    monitorRun obs fuel {} 0 =
      some (Report.completed ("Monitoring timeout — assumed completed"), 60) := by
  refine ⟨rfl, rfl, rfl, rfl, rfl, ?_,
    monitorRun_timeout obs hnt fuel 0 {} (by omega) (by omega)⟩
  intro k o o' s hlt
  rw [monitorTick_late _ _ _ hlt, monitorTick_late _ _ _ hlt]

/-- Claim C7 witness: the monitor law evaluated on the trace that always
observes a transient poll error. -/
theorem C7_spooler_monitor_witness :
    monitor OsJobId.missing (fun _ => Obs.pollError) 61 =
      MonitorResult.immediate noJobIdDelayMs
        (Report.completed ("Sent to printer (no spooler tracking)")) ∧
    pollIntervalMs = 2000 ∧ maxPollTimeMs = 120000 ∧ noJobIdDelayMs = 500 ∧
    monitor (OsJobId.numId 3) (fun _ => Obs.pollError) 61 =
      MonitorResult.polled (monitorRun (fun _ => Obs.pollError) 61 {} 0) ∧
    (∀ k o o' s, maxPollTimeMs < pollIntervalMs * (k + 1) →
      monitorTick (pollIntervalMs * (k + 1)) o s =
        monitorTick (pollIntervalMs * (k + 1)) o' s) ∧
    monitorRun (fun _ => Obs.pollError) 61 {} 0 =
      some (Report.completed ("Monitoring timeout — assumed completed"), 60) :=
  C7_spooler_monitor (fun _ => Obs.pollError) 61 3 (fun _ => trivial) (by omega)

/-- Claim C6 counterexample: at reconnect attempt number 7 the client
schedules a 300000 ms delay, while the claim's formula
`delays[min(n, len-1)]` capped at 300 s yields 60000 ms. -/
theorem C6_counterexample :
    (scheduleReconnect { reconnectAttempts := 7 } 0).2 =
      [SockEvent.stateChange ConnState.disconnected ConnState.reconnecting,
       SockEvent.reconnecting 8 300000 300000] ∧
    specScheduleDelay 7 = 60000 ∧
    scheduleDelay 7 ≠ specScheduleDelay 7 := by
  decide

/-- Claim C6 (amended): when a reconnect is actually scheduled (not a
manual disconnect, no timer already armed), the delay is
`reconnectDelays[n]` for attempt number n < 7 and the 300 s maximum for
n ≥ 7 (not `delays[min(n, len-1)]`), and the attempt counter is
incremented by the scheduling. -/
theorem C6_reconnect_backoff (st : SocketState) (now : Nat)
    (hmd : st.manualDisconnect = false) (htm : st.reconnectTimerSet = false) :
    (scheduleReconnect st now).1.reconnectAttempts = st.reconnectAttempts + 1 ∧
    SockEvent.reconnecting (st.reconnectAttempts + 1) (scheduleDelay st.reconnectAttempts)
      (now + scheduleDelay st.reconnectAttempts) ∈ (scheduleReconnect st now).2 ∧
    (st.reconnectAttempts < 7 →
      scheduleDelay st.reconnectAttempts = reconnectDelays.getD st.reconnectAttempts 0) ∧
    (7 ≤ st.reconnectAttempts → scheduleDelay st.reconnectAttempts = maxReconnectDelay) := by
  refine ⟨?_, ?_, ?_, ?_⟩
  · simp [scheduleReconnect, hmd, htm, setSockState]
  · simp [scheduleReconnect, hmd, htm, setSockState]
  · intro h7
    have hlen : reconnectDelays.length = 7 := rfl
    have h7' : st.reconnectAttempts < reconnectDelays.length := by rw [hlen]; exact h7
    have hmin : min st.reconnectAttempts (reconnectDelays.length - 1) = st.reconnectAttempts := by
      rw [hlen]; omega
    simp only [scheduleDelay]
    rw [if_pos h7', hmin]
  · intro h7
    have hlen : reconnectDelays.length = 7 := rfl
    have : ¬ st.reconnectAttempts < reconnectDelays.length := by rw [hlen]; omega
    simp [scheduleDelay, this]

/-- Claim C6 witness: the amended backoff law evaluated at a fresh socket
state and at an exhausted backoff list. -/
theorem C6_reconnect_backoff_witness :
    ((scheduleReconnect { reconnectAttempts := 0 } 5).1.reconnectAttempts = 0 + 1 ∧
      SockEvent.reconnecting (0 + 1) (scheduleDelay 0) (5 + scheduleDelay 0) ∈
        (scheduleReconnect { reconnectAttempts := 0 } 5).2 ∧
      ((0 : Nat) < 7 → scheduleDelay 0 = reconnectDelays.getD 0 0) ∧
      ((7 : Nat) ≤ 0 → scheduleDelay 0 = maxReconnectDelay)) ∧
    ((scheduleReconnect { reconnectAttempts := 9 } 5).1.reconnectAttempts = 9 + 1 ∧
      SockEvent.reconnecting (9 + 1) (scheduleDelay 9) (5 + scheduleDelay 9) ∈
        (scheduleReconnect { reconnectAttempts := 9 } 5).2 ∧
      ((9 : Nat) < 7 → scheduleDelay 9 = reconnectDelays.getD 9 0) ∧
      ((7 : Nat) ≤ 9 → scheduleDelay 9 = maxReconnectDelay)) :=
  ⟨C6_reconnect_backoff { reconnectAttempts := 0 } 5 rfl rfl,
   C6_reconnect_backoff { reconnectAttempts := 9 } 5 rfl rfl⟩

/-- Claim C9: in the rendered thermal receipt (current executor), the
closing line "Merci de votre visite !" appears in the command stream
exactly when the job's content has a non-empty items list; in particular it
is absent for every content without items. The hypotheses rule out content
whose free-text fields (store name, store address, footer) happen to equal
the closing line verbatim. -/
theorem C9_merci_only_with_items (nowStr : String) (c : ReceiptContent)
    (hname : jsOrStr c.storeName "RepairMind" ≠ merciLine)
    (haddr : ∀ s, c.storeAddress = some s → s ≠ merciLine)
    (hfoot : ∀ s, c.footer = some s → s ≠ merciLine) :
    TCmd.doPrintln merciLine ∈ buildThermalReceipt nowStr c ↔
      ∃ l, c.items = some l ∧ l ≠ [] := by
  have hAddr : merciLine ≠ c.storeAddress.getD "" := by
    cases hsa : c.storeAddress with
    | none => decide
    | some s => simpa using Ne.symm (haddr s hsa)
  have hFoot : merciLine ≠ c.footer.getD "" := by
    cases hsf : c.footer with
    | none => decide
    | some s => simpa using Ne.symm (hfoot s hsf)
  constructor
  · intro hmem
    have contra : hasItems c = false → False := by
      intro hitB
      simp [buildThermalReceipt, hitB, mem_ite_nil, Ne.symm hname, hAddr, hFoot,
        merci_ne_hash, merci_ne_date, merci_ne_client, merci_ne_phone,
        merci_ne_total] at hmem
    cases hil : c.items with
    | none => exact (contra (by simp [hasItems, hil])).elim
    | some l =>
      refine ⟨l, rfl, fun hleq => ?_⟩
      exact contra (by simp [hasItems, hil, hleq])
  · rintro ⟨l, hl, hlne⟩
    have hitB : hasItems c = true := by simp [hasItems, hl, hlne]
    simp [buildThermalReceipt, hitB]

/-- Claim C9 witness: the closing-line law evaluated on a one-item receipt
and on an items-less receipt. -/
theorem C9_merci_only_with_items_witness :
    (TCmd.doPrintln merciLine ∈
        buildThermalReceipt "1/1/2026"
          { storeName := some "S",
            items := some [{ quantity := 1, description := "X", price := 999 }] } ↔
      ∃ l, ({ storeName := some "S",
              items := some [{ quantity := 1, description := "X", price := 999 }] } :
            ReceiptContent).items = some l ∧ l ≠ []) ∧
    (TCmd.doPrintln merciLine ∈
        buildThermalReceipt "1/1/2026" { storeName := some "S" } ↔
      ∃ l, ({ storeName := some "S" } : ReceiptContent).items = some l ∧ l ≠ []) :=
  ⟨C9_merci_only_with_items "1/1/2026" _ (by decide) (fun s h => nomatch h)
      (fun s h => nomatch h),
   C9_merci_only_with_items "1/1/2026" _ (by decide) (fun s h => nomatch h)
      (fun s h => nomatch h)⟩

/-- Claim C10: when a job is accepted, the entry's priority is the explicit
`options.priority` argument when present (and truthy), else the nested
`job.options.priority` when present (and truthy), else "normal"; the
top-level `job.priority` wire field is never consulted — changing it is
invisible to the result and the recorded priority. -/
theorem C10_priority_resolution (st : QueueState) (now : Nat) (job : Job)
    (opts : EnqueueOptions) (p' : Option String)
    (henq : (enqueue st now job opts).1 = true) :
    (∀ p, opts.priority = some p → p ≠ "" →
      queuedPriority (enqueue st now job opts).2.2 = some p) ∧
    ((opts.priority = none ∨ opts.priority = some "") →
      ∀ q, job.options.bind JobOptions.priority = some q → q ≠ "" →
        queuedPriority (enqueue st now job opts).2.2 = some q) ∧
    ((opts.priority = none ∨ opts.priority = some "") →
      (job.options.bind JobOptions.priority = none ∨
        job.options.bind JobOptions.priority = some "") →
      queuedPriority (enqueue st now job opts).2.2 = some "normal") ∧
    queuedPriority (enqueue st now { job with priority := p' } opts).2.2 =
      queuedPriority (enqueue st now job opts).2.2 ∧
    (enqueue st now { job with priority := p' } opts).1 =
      (enqueue st now job opts).1 := by
  have hq := queuedPriority_enqueue st now job opts henq
  have hind := enqueue_ignores_wire_priority st now job opts p'
  refine ⟨?_, ?_, ?_, hind.1, hind.2⟩
  · intro p hpp hpne
    rw [hq]
    simp [jsOrStr, hpp, hpne]
  · intro hop q hjq hqne
    rcases hop with h | h <;>
      · rw [hq]
        simp [jsOrStr, h, hjq, hqne]
  · intro hop hjob
    rcases hop with h | h <;> rcases hjob with h2 | h2 <;>
      · rw [hq]
        simp [jsOrStr, h, h2]

/-- Claim C10 witness: priority resolution evaluated at a fresh queue for a
job carrying a conflicting top-level wire priority, with and without an
explicit override. -/
theorem C10_priority_resolution_witness :
    queuedPriority (enqueue {} 0
      { id := "j1", printerSystemName := some "P1", priority := some "low",
        options := some { priority := some "normal" } }
      { priority := some "urgent" }).2.2 = some "urgent" ∧
    queuedPriority (enqueue {} 0
      { id := "j2", printerSystemName := some "P1", priority := some "low",
        options := some { priority := some "urgent" } } {}).2.2 = some "urgent" :=
  ⟨(C10_priority_resolution {} 0
      { id := "j1", printerSystemName := some "P1", priority := some "low",
        options := some { priority := some "normal" } }
      { priority := some "urgent" } (some "high") (by decide)).1 "urgent" rfl (by decide),
   (C10_priority_resolution {} 0
      { id := "j2", printerSystemName := some "P1", priority := some "low",
        options := some { priority := some "urgent" } }
      {} (some "high") (by decide)).2.1 (Or.inl rfl) "urgent" rfl (by decide)⟩

/-- Claim C8 counterexample: on a queue holding one cancelled entry, the
object returned by `getStats()` carries no "cancelled" key at all, although
one entry is in that status — so the record does not contain a count for
every status. -/
theorem C8_counterexample :
    countStatus { jobs := [sampleEntry "j1" "P1" Status.cancelled] } Status.cancelled = 1 ∧
    hasKey (getStats { jobs := [sampleEntry "j1" "P1" Status.cancelled] }).1
      "cancelled" = false := by
  decide

/-- Claim C8 (amended): `getStats()` returns the keys queued, processing,
completed, failed, expired, total and activePrinters plus the metrics copy;
each of the five status counts equals the number of entries in that status,
`total` is the array length and `activePrinters` the busy-set size, but
there is no `cancelled` count (cancelled entries are counted only in
`total`). -/
theorem C8_stats (st : QueueState) :
    lookupD (getStats st).1 "queued" = countStatus st Status.queued ∧
    lookupD (getStats st).1 "processing" = countStatus st Status.processing ∧
    lookupD (getStats st).1 "completed" = countStatus st Status.completed ∧
    lookupD (getStats st).1 "failed" = countStatus st Status.failed ∧
    lookupD (getStats st).1 "expired" = countStatus st Status.expired ∧
    hasKey (getStats st).1 "cancelled" = false ∧
    lookupD (getStats st).1 "total" = st.jobs.length ∧
    lookupD (getStats st).1 "activePrinters" = st.processingPrinters.card ∧
    (getStats st).2 = st.metrics := by
  refine ⟨getStats_fields_count st Status.queued rfl rfl,
    getStats_fields_count st Status.processing rfl rfl,
    getStats_fields_count st Status.completed rfl rfl,
    getStats_fields_count st Status.failed rfl rfl,
    getStats_fields_count st Status.expired rfl rfl,
    ?_, ?_, ?_, rfl⟩
  · have h1 : hasKey
        (st.jobs.foldl (fun acc j => bumpKey acc (statusKey j.status)) (statsInit st))
        "cancelled" = false := by
      rw [hasKey_statsFold]; rfl
    show hasKey (_ ++ _) _ = false
    unfold hasKey
    unfold hasKey at h1
    rw [List.find?_append]
    cases hf : (st.jobs.foldl (fun acc j => bumpKey acc (statusKey j.status))
        (statsInit st)).find? fun p => p.1 = "cancelled" with
    | none => rfl
    | some p => rw [hf] at h1; exact absurd h1 (by simp)
  · have hkeys : hasKey
        (st.jobs.foldl (fun acc j => bumpKey acc (statusKey j.status)) (statsInit st))
        "total" = true := by
      rw [hasKey_statsFold]; rfl
    show lookupD (_ ++ _) _ = _
    rw [lookupD_append_left _ _ _ hkeys,
      lookupD_statsFold st.jobs (statsInit st) "total" rfl]
    have hnone : (st.jobs.filter fun j => statusKey j.status = "total") =
        st.jobs.filter fun _ => false :=
      List.filter_congr fun j _ => by cases hs : j.status <;> rfl
    rw [hnone, List.filter_false]
    rfl
  · have h1 : hasKey
        (st.jobs.foldl (fun acc j => bumpKey acc (statusKey j.status)) (statsInit st))
        "activePrinters" = false := by
      rw [hasKey_statsFold]; rfl
    show lookupD (_ ++ _) _ = _
    rw [lookupD_append_right _ _ _ h1]
    rfl

/-- Claim C1 counterexample: a job whose id "j1" labels a queued entry but
which carries no `printerSystemName` makes `enqueue` return false with an
`error` event — no `job-deduplicated` event is emitted, refuting both
directions of the claim as stated. -/
theorem C1_counterexample :
    (enqueue { jobs := [sampleEntry "j1" "P1" Status.queued] } 0 { id := "j1" } {}).1 =
      false ∧
    QEvent.jobDeduplicated "j1" ∉
      (enqueue { jobs := [sampleEntry "j1" "P1" Status.queued] } 0 { id := "j1" } {}).2.2 := by
  decide

/-- Claim C1 (amended): for a job carrying a `printerSystemName` whose id
labels the first id-matching entry and that entry is queued or processing,
`enqueue` returns false, leaves the entries and the busy set unchanged, and
emits exactly `job-deduplicated` (only the `totalDeduplicated` metrics
counter advances); conversely, whenever `enqueue` returns false the entries
and busy set are unchanged and either a `job-deduplicated` event (duplicate
non-terminal id) or a missing-`printerSystemName` `error` event was
emitted. -/
theorem C1_enqueue_idempotent (st : QueueState) (now : Nat) (job : Job)
    (opts : EnqueueOptions) :
    (∀ e, strTruthy job.printerSystemName = true →
      st.jobs.find? (fun j => j.id = job.id) = some e →
      (e.status = Status.queued ∨ e.status = Status.processing) →
      (enqueue st now job opts).1 = false ∧
      (enqueue st now job opts).2.1.jobs = st.jobs ∧
      (enqueue st now job opts).2.1.processingPrinters = st.processingPrinters ∧
      (enqueue st now job opts).2.2 = [QEvent.jobDeduplicated job.id]) ∧
    ((enqueue st now job opts).1 = false →
      (enqueue st now job opts).2.1.jobs = st.jobs ∧
      (enqueue st now job opts).2.1.processingPrinters = st.processingPrinters ∧
      ((enqueue st now job opts).2.2 = [QEvent.jobDeduplicated job.id] ∨
        (enqueue st now job opts).2.2 =
          [QEvent.queueError
            ("Job " ++ job.id ++ " rejected: missing printerSystemName")])) := by
  constructor
  · intro e hp hfind hst
    exact ⟨by simp [enqueue, hp, hfind, hst], by simp [enqueue, hp, hfind, hst],
      by simp [enqueue, hp, hfind, hst], by simp [enqueue, hp, hfind, hst]⟩
  · by_cases hp : strTruthy job.printerSystemName
    · rcases hfind : st.jobs.find? (fun j => j.id = job.id) with _ | e
      · intro hres
        exact absurd hres (by simp [enqueue, hp, hfind])
      · by_cases hst : e.status = Status.queued ∨ e.status = Status.processing
        · intro _
          exact ⟨by simp [enqueue, hp, hfind, hst], by simp [enqueue, hp, hfind, hst],
            Or.inl (by simp [enqueue, hp, hfind, hst])⟩
        · intro hres
          exact absurd hres (by simp [enqueue, hp, hfind, hst])
    · intro _
      exact ⟨by simp [enqueue, hp], by simp [enqueue, hp],
        Or.inr (by simp [enqueue, hp])⟩

/-- Claim C1 witness: the dedup branch evaluated on a one-entry queue. -/
theorem C1_enqueue_idempotent_witness :
    (enqueue { jobs := [sampleEntry "j1" "P1" Status.queued] } 0 (sampleJob "j1" "P1")
      {}).1 = false ∧
    (enqueue { jobs := [sampleEntry "j1" "P1" Status.queued] } 0 (sampleJob "j1" "P1")
      {}).2.2 = [QEvent.jobDeduplicated "j1"] :=
  ⟨((C1_enqueue_idempotent { jobs := [sampleEntry "j1" "P1" Status.queued] } 0
      (sampleJob "j1" "P1") {}).1 (sampleEntry "j1" "P1" Status.queued)
      (by decide) (by decide) (Or.inl rfl)).1,
   ((C1_enqueue_idempotent { jobs := [sampleEntry "j1" "P1" Status.queued] } 0
      (sampleJob "j1" "P1") {}).1 (sampleEntry "j1" "P1" Status.queued)
      (by decide) (by decide) (Or.inl rfl)).2.2.2⟩

/-- Claim C2: the per-printer mutual-exclusion invariant (at most one
`processing` entry per printer, every processing printer marked busy) is
preserved by every queue operation — a scheduling pass, an enqueue, the
completion of a processing entry, a cancellation, and a TTL-expiration
sweep — and a scheduling pass never starts a job whose printer is already
busy (such an entry is left untouched). -/
theorem C2_per_printer_exclusive (st : QueueState) (now : Nat) (job : Job)
    (opts : EnqueueOptions) (i : Nat) (oc : Outcome) (jobId : String) (e : Entry)
    (hinv : PrinterInv st) :
    PrinterInv (processNext st now).1 ∧
    PrinterInv (enqueue st now job opts).2.1 ∧
    (st.jobs[i]? = some e → e.status = Status.processing →
      PrinterInv (finishJob st now i oc).1) ∧
    PrinterInv (cancelJob st now jobId).2.1 ∧
    PrinterInv (expireJobs st now).1 ∧
    (∀ (k : Nat) (ek : Entry), st.jobs[k]? = some ek → ek.status = Status.queued →
      ek.printerSystemName ∈ st.processingPrinters →
      (processNext st now).1.jobs[k]? = some ek) :=
  ⟨processNext_printerInv st now hinv,
   enqueue_printerInv st now job opts hinv,
   fun hj hproc => finishJob_printerInv st now i oc e hj hproc hinv,
   cancelJob_printerInv st now jobId hinv,
   expireJobs_printerInv st now hinv,
   fun k ek hk hq hb => processNext_busy_preserved st now k ek hk hq hb⟩

/-- Claim C2 witness: the exclusion law evaluated on a queue with one
processing entry whose printer is marked busy. -/
theorem C2_per_printer_exclusive_witness :
    PrinterInv (processNext busyQueue 5).1 ∧
    PrinterInv (enqueue busyQueue 5 (sampleJob "j2" "P2") {}).2.1 ∧
    (busyQueue.jobs[0]? = some (sampleEntry "j1" "P1" Status.processing) →
      (sampleEntry "j1" "P1" Status.processing).status = Status.processing →
      PrinterInv (finishJob busyQueue 5 0 Outcome.success).1) ∧
    PrinterInv (cancelJob busyQueue 5 "j1").2.1 ∧
    PrinterInv (expireJobs busyQueue 5).1 ∧
    (∀ (k : Nat) (ek : Entry), busyQueue.jobs[k]? = some ek →
      ek.status = Status.queued →
      ek.printerSystemName ∈ busyQueue.processingPrinters →
      (processNext busyQueue 5).1.jobs[k]? = some ek) :=
  C2_per_printer_exclusive busyQueue 5 (sampleJob "j2" "P2") {} 0 Outcome.success "j1"
    (sampleEntry "j1" "P1" Status.processing) (by decide)

/-- Claim C3: `retries ≤ maxRetries` (and `failed` only at the budget) is
preserved by every queue operation, and a failed executor attempt on an
entry with `retries < maxRetries` emits `job-retrying` with the retry
counter incremented and the entry back in `queued` — no `job-failed` event
is emitted on that path. -/
theorem C3_retries_bounded (st : QueueState) (now : Nat) (job : Job)
    (opts : EnqueueOptions) (i : Nat) (oc : Outcome) (jobId : String)
    (msg : String) (e : Entry) (hinv : RetriesInv st) :
    RetriesInv (processNext st now).1 ∧
    RetriesInv (enqueue st now job opts).2.1 ∧
    RetriesInv (finishJob st now i oc).1 ∧
    RetriesInv (cancelJob st now jobId).2.1 ∧
    RetriesInv (expireJobs st now).1 ∧
    (st.jobs[i]? = some e → e.retries < e.maxRetries →
      ∃ (e' : Entry) (d : Nat),
        (finishJob st now i (Outcome.failure msg)).2.head? =
          some (QEvent.jobRetrying e' d) ∧
        e'.retries = e.retries + 1 ∧ e'.status = Status.queued ∧
        ∀ ev ∈ (finishJob st now i (Outcome.failure msg)).2, ∀ x : Entry,
          ev ≠ QEvent.jobFailed x) :=
  ⟨processNext_retriesInv st now hinv,
   enqueue_retriesInv st now job opts hinv,
   finishJob_retriesInv st now i oc hinv,
   cancelJob_retriesInv st now jobId hinv,
   expireJobs_retriesInv st now hinv,
   fun hj hret =>
     ⟨_, _, (finishJob_retry_events st now i msg e hj hret).1, rfl, rfl,
      (finishJob_retry_events st now i msg e hj hret).2⟩⟩

/-- Claim C3 witness: the retry-budget law evaluated on a queue with one
processing entry (`retries = 0 < maxRetries = 3`) that fails. -/
theorem C3_retries_bounded_witness :
    RetriesInv (processNext busyQueue 5).1 ∧
    RetriesInv (enqueue busyQueue 5 (sampleJob "j2" "P2") {}).2.1 ∧
    RetriesInv (finishJob busyQueue 5 0 (Outcome.failure "boom")).1 ∧
    RetriesInv (cancelJob busyQueue 5 "j1").2.1 ∧
    RetriesInv (expireJobs busyQueue 5).1 ∧
    (busyQueue.jobs[0]? = some (sampleEntry "j1" "P1" Status.processing) →
      (sampleEntry "j1" "P1" Status.processing).retries <
        (sampleEntry "j1" "P1" Status.processing).maxRetries →
      ∃ (e' : Entry) (d : Nat),
        (finishJob busyQueue 5 0 (Outcome.failure "boom")).2.head? =
          some (QEvent.jobRetrying e' d) ∧
        e'.retries = (sampleEntry "j1" "P1" Status.processing).retries + 1 ∧
        e'.status = Status.queued ∧
        ∀ ev ∈ (finishJob busyQueue 5 0 (Outcome.failure "boom")).2, ∀ x : Entry,
          ev ≠ QEvent.jobFailed x) :=
  C3_retries_bounded busyQueue 5 (sampleJob "j2" "P2") {} 0
    (Outcome.failure "boom") "j1" "boom"
    (sampleEntry "j1" "P1" Status.processing) (by decide)

/-- Claim C4 counterexample: `cancelJob` on a queue whose only entry is
already terminal (completed) returns true and re-labels the entry
cancelled — a terminal entry does undergo a further status transition. -/
theorem C4_counterexample :
    (cancelJob { jobs := [sampleEntry "j1" "P1" Status.completed] } 5 "j1").1 = true ∧
    ((cancelJob { jobs := [sampleEntry "j1" "P1" Status.completed] } 5
        "j1").2.1.jobs.map Entry.status) = [Status.cancelled] := by
  decide

/-- Claim C4 (amended): `cancelJob(id)` refuses (returns false, no change)
exactly when no entry has the id or the first id-matching entry is
processing; otherwise — including when that entry is already terminal — it
re-labels the entry cancelled. Under the remaining operations a terminal
entry never changes status: a scheduling pass carries it unchanged in
place; enqueue never produces a modified terminal entry (terminal entries
of the result were already present, and a pre-existing terminal entry
survives unchanged unless its id is replaced by the new job); finishing a
processing entry yields terminal entries that were already present or
belong to that processing entry's id; expiration maps terminal entries to
themselves. -/
theorem C4_cancel_and_terminal (st : QueueState) (now : Nat) (job : Job)
    (opts : EnqueueOptions) (i : Nat) (oc : Outcome) (jobId : String)
    (e : Entry) :
    (st.jobs.findIdx? (fun j => j.id = jobId) = none →
      cancelJob st now jobId = (false, st, [])) ∧
    (∀ (k : Nat) (ec : Entry), st.jobs.findIdx? (fun j => j.id = jobId) = some k →
      st.jobs[k]? = some ec → ec.status = Status.processing →
      cancelJob st now jobId = (false, st, [])) ∧
    (∀ (k : Nat) (ec : Entry), st.jobs.findIdx? (fun j => j.id = jobId) = some k →
      st.jobs[k]? = some ec → ec.status ≠ Status.processing →
      (cancelJob st now jobId).1 = true ∧
      (cancelJob st now jobId).2.1.jobs = st.jobs.set k
        { ec with
          status := Status.cancelled
          updatedAt := now
          error := some ("Cancelled by user") } ∧
      (cancelJob st now jobId).2.2 = [QEvent.jobCancelled
        { ec with
          status := Status.cancelled
          updatedAt := now
          error := some ("Cancelled by user") }]) ∧
    (∀ (k : Nat) (et : Entry), st.jobs[k]? = some et →
      isTerminal et.status = true →
      (processNext st now).1.jobs[k]? = some et) ∧
    (∀ e' ∈ (enqueue st now job opts).2.1.jobs, isTerminal e'.status = true →
      e' ∈ st.jobs) ∧
    (∀ et ∈ st.jobs, isTerminal et.status = true →
      et ∈ (enqueue st now job opts).2.1.jobs ∨ et.id = job.id) ∧
    (st.jobs[i]? = some e → e.status = Status.processing →
      ∀ e' ∈ (finishJob st now i oc).1.jobs, isTerminal e'.status = true →
        e' ∈ st.jobs ∨ e'.id = e.id) ∧
    ((expireJobs st now).1.jobs = st.jobs.map (expireOne now) ∧
      ∀ et : Entry, isTerminal et.status = true → expireOne now et = et) := by
  refine ⟨?_, ?_, ?_, ?_, ?_, ?_, ?_, ?_, ?_⟩
  · intro hfi
    simp [cancelJob, hfi]
  · intro k ec hfi hj hproc
    simp [cancelJob, hfi, hj, hproc]
  · intro k ec hfi hj hproc
    refine ⟨by simp [cancelJob, hfi, hj, hproc], by simp [cancelJob, hfi, hj, hproc],
      by simp [cancelJob, hfi, hj, hproc]⟩
  · intro k et hk ht
    exact processNext_terminal_preserved st now k et hk ht
  · exact enqueue_terminal_back st now job opts
  · exact enqueue_terminal_forward st now job opts
  · intro hj _
    exact finishJob_terminal_back st now i oc e hj
  · exact expireJobs_jobs st now
  · exact fun et ht => expireOne_terminal_id now et ht

/-- Claim C4 witness: the amended law evaluated on a queue holding a single
completed entry — its cancellation succeeds and re-labels the entry. -/
theorem C4_cancel_and_terminal_witness :
    (cancelJob { jobs := [sampleEntry "j1" "P1" Status.completed] } 5 "j1").1 = true ∧
    (cancelJob { jobs := [sampleEntry "j1" "P1" Status.completed] } 5
        "j1").2.1.jobs =
      ({ jobs := [sampleEntry "j1" "P1" Status.completed] } :
        QueueState).jobs.set 0
        { sampleEntry "j1" "P1" Status.completed with
          status := Status.cancelled
          updatedAt := 5
          error := some ("Cancelled by user") } ∧
    (cancelJob { jobs := [sampleEntry "j1" "P1" Status.completed] } 5 "j1").2.2 =
      [QEvent.jobCancelled
        { sampleEntry "j1" "P1" Status.completed with
          status := Status.cancelled
          updatedAt := 5
          error := some ("Cancelled by user") }] :=
  (C4_cancel_and_terminal { jobs := [sampleEntry "j1" "P1" Status.completed] } 5
      (sampleJob "j2" "P2") {} 0 Outcome.success "j1"
      (sampleEntry "j1" "P1" Status.completed)).2.2.1 0
    (sampleEntry "j1" "P1" Status.completed) (by decide) (by decide) (by decide)

end RepairMind
